import Mathlib

/-!
# Verification of the BMP image-processing library

A shallow embedding of the repository's 8-bit (`bmp8.c`) and 24-bit
(`bmp24.c`) BMP codecs, the pixel-processing operations, and the histogram
equalization engine (`histogram.c`), with theorems settling the
specification's claims.

Modelling conventions:
* bytes are `Nat` (always < 256 when they come from a file), files are
  `List Nat` indexed by absolute position;
* C `float`/`double` arithmetic is modelled over `ℚ` (the claims settled
  here depend on which samples/branches are taken and on monotone
  operations, not on binary floating-point rounding);
* `malloc` returns uninitialized memory: this indeterminacy is made
  explicit by a "junk" parameter supplying the initial contents;
* in-place mutation becomes a function returning the updated record;
* C `uint32_t` header stores wrap: `bmp24_allocate` truncates its
  `row_size`/`imagesize`/`size` stores mod `2^32` as the C stores do.
  The fields `bmp24_saveImage` recomputes reach the file only through the
  byte serializer, and `bytesOfU32` keeps exactly the low four bytes, so
  the emitted bytes coincide with the wrapped C stores there as well.
-/

set_option maxRecDepth 8000

/-- Truncation toward zero, the C cast `(int)` applied to a real value. -/
def c_trunc (q : ℚ) : ℤ := if q < 0 then -⌊-q⌋ else ⌊q⌋

/-- C `round`/`roundf`: round half away from zero. -/
def c_round (q : ℚ) : ℤ := if q < 0 then -⌊-q + 1/2⌋ else ⌊q + 1/2⌋

/-- `clamp_u8` (bmp24.c / histogram.c): clamp an `int` to `[0,255]`. -/
def clamp_u8 (v : ℤ) : ℕ := if v < 0 then 0 else if v > 255 then 255 else v.toNat

/-- `clamp_u8_f` (histogram.c): clamp a float to `[0,255]`, rounding with
`roundf` in the in-range case. -/
def clamp_u8_f (q : ℚ) : ℕ := if q < 0 then 0 else if q > 255 then 255 else (c_round q).toNat

/-- Little-endian 16-bit value from two bytes. -/
def u16le (b0 b1 : ℕ) : ℕ := b0 + 256 * b1

/-- Little-endian 32-bit value from four bytes. -/
def u32le (b0 b1 b2 b3 : ℕ) : ℕ := b0 + 256 * b1 + 65536 * b2 + 16777216 * b3

/-- The two bytes of a `uint16_t` store, little-endian. -/
def bytesOfU16 (n : ℕ) : List ℕ := [n % 256, n / 256 % 256]

/-- The four bytes of a `uint32_t` store, little-endian. -/
def bytesOfU32 (n : ℕ) : List ℕ := [n % 256, n / 256 % 256, n / 65536 % 256, n / 16777216 % 256]

/-- Reinterpret a `uint32_t` bit pattern as a two's-complement `int32_t`. -/
def asI32 (n : ℕ) : ℤ := if n < 2 ^ 31 then (n : ℤ) else (n : ℤ) - 2 ^ 32

/-- The four bytes of an `int32_t` store, little-endian two's complement. -/
def bytesOfI32 (v : ℤ) : List ℕ := bytesOfU32 ((v.emod (2 ^ 32)).toNat)

/-- `fread` of exactly `n` bytes at absolute position `pos`, with the
short-read check the 8-bit codec performs: `none` on a short read. -/
def readBytes (file : List ℕ) (pos n : ℕ) : Option (List ℕ) :=
  if pos + n ≤ file.length then some ((file.drop pos).take n) else none

/-!
## 8-bit codec (`bmp8.c`)

`t_bmp8` stores the 54-byte header and 1024-byte color table verbatim as
byte lists, and the pixel data as a flat byte list of length `dataSize`.
-/

structure t_bmp8 where
  header : List ℕ
  colorTable : List ℕ
  data : List ℕ
  width : ℕ
  height : ℕ
  colorDepth : ℕ
  dataSize : ℕ
deriving DecidableEq

/-- `img->width = *(unsigned int *)&img->header[18]`. -/
def bmp8_widthOf (header : List ℕ) : ℕ :=
  u32le (header.getD 18 0) (header.getD 19 0) (header.getD 20 0) (header.getD 21 0)

/-- `img->height = *(unsigned int *)&img->header[22]`. -/
def bmp8_heightOf (header : List ℕ) : ℕ :=
  u32le (header.getD 22 0) (header.getD 23 0) (header.getD 24 0) (header.getD 25 0)

/-- `img->colorDepth = *(unsigned short *)&img->header[28]`. -/
def bmp8_depthOf (header : List ℕ) : ℕ := u16le (header.getD 28 0) (header.getD 29 0)

/-- The raw `dataSize` header field, `*(unsigned int *)&img->header[34]`. -/
def bmp8_rawDataSizeOf (header : List ℕ) : ℕ :=
  u32le (header.getD 34 0) (header.getD 35 0) (header.getD 36 0) (header.getD 37 0)

/-- `dataOffset = *(unsigned int *)&img->header[10]`. -/
def bmp8_offsetOf (header : List ℕ) : ℕ :=
  u32le (header.getD 10 0) (header.getD 11 0) (header.getD 12 0) (header.getD 13 0)

/-- The normalized data size: the raw header field, or `width*height` when
that field reads as 0 (the no-padding derivation in `bmp8_loadImage`). -/
def bmp8_dataSizeOf (header : List ℕ) : ℕ :=
  if bmp8_rawDataSizeOf header = 0 then bmp8_widthOf header * bmp8_heightOf header
  else bmp8_rawDataSizeOf header

/-- `bmp8_loadImage`: read the 54-byte header, check the `BM` signature
(bytes 66 'B' and 77 'M'), extract width/height/colorDepth/dataSize/offset
at their fixed little-endian offsets, require depth 8, read the 1024-byte
color table, derive `dataSize = width*height` when the header field is 0,
seek to the recorded offset and read exactly `dataSize` pixel bytes.
Every short read or failed check aborts with no image (`none`). -/
def bmp8_loadImage (file : List ℕ) : Option t_bmp8 :=
  match readBytes file 0 54 with
  | none => none
  | some header =>
    if header.getD 0 0 = 66 ∧ header.getD 1 0 = 77 then
      if bmp8_depthOf header = 8 then
        match readBytes file 54 1024 with
        | none => none
        | some colorTable =>
          match readBytes file (bmp8_offsetOf header) (bmp8_dataSizeOf header) with
          | none => none
          | some data =>
            some { header := header, colorTable := colorTable, data := data,
                   width := bmp8_widthOf header, height := bmp8_heightOf header,
                   colorDepth := bmp8_depthOf header, dataSize := bmp8_dataSizeOf header }
      else none
    else none

/-- `bmp8_saveImage`: write the header (54 bytes), color table (1024 bytes)
and `dataSize` pixel bytes, in that order. -/
def bmp8_saveImage (img : t_bmp8) : List ℕ :=
  img.header ++ img.colorTable ++ img.data.take img.dataSize

/-- `bmp8_negative`: every pixel byte becomes `255 - value`. -/
def bmp8_negative (img : t_bmp8) : t_bmp8 :=
  { img with data := img.data.map (fun b => 255 - b) }

/-- `bmp8_brightness`: add `value` to every pixel byte, clamped to `[0,255]`. -/
def bmp8_brightness (img : t_bmp8) (value : ℤ) : t_bmp8 :=
  { img with data := img.data.map (fun b => clamp_u8 ((b : ℤ) + value)) }

/-- `bmp8_threshold`: clamp the threshold into `[0,255]` (out-of-range
values snap to 0 or 255), then map each byte to 255 iff it is `≥` the
threshold, else 0. -/
def bmp8_threshold (img : t_bmp8) (threshold : ℤ) : t_bmp8 :=
  let threshold_val : ℕ := if threshold < 0 then 0 else if threshold > 255 then 255
    else threshold.toNat
  { img with data := img.data.map (fun b => if threshold_val ≤ b then 255 else 0) }

/-- `bmp8_applyFilter`: reject a non-positive or even kernel size (image
unchanged); otherwise snapshot the pixel buffer and recompute only the
interior pixels (a border of `kernelRadius = kernelSize/2` pixels on every
side is left untouched), each as the kernel-weighted sum of its
neighborhood in the snapshot, rounded by `(int)(sum + 0.5f)` and clamped.
The buffer is flat with index `y*width + x`; positions outside the
interior (including any tail beyond `width*height`) keep their bytes. -/
def bmp8_applyFilter (img : t_bmp8) (kernel : List (List ℚ)) (kernelSize : ℕ) : t_bmp8 :=
  if kernelSize = 0 ∨ kernelSize % 2 = 0 then img
  else
    let w := img.width
    let h := img.height
    let r := kernelSize / 2
    let orig := img.data
    { img with data := (List.range img.data.length).map (fun idx =>
        let y := idx / w
        let x := idx % w
        if r ≤ y ∧ y < h - r ∧ r ≤ x ∧ x < w - r then
          let sum : ℚ := ∑ a ∈ Finset.range kernelSize, ∑ b ∈ Finset.range kernelSize,
            ((orig.getD ((y + a - r) * w + (x + b - r)) 0 : ℚ)) * ((kernel.getD a []).getD b 0)
          clamp_u8 (c_trunc (sum + 1/2))
        else orig.getD idx 0) }

/-!
## Histogram equalization engine (`histogram.c`)

Histograms and LUTs are modelled as functions `ℕ → ℕ` (the C arrays are
indexed only by byte intensities 0–255).
-/

/-- `bmp8_computeHistogram`: occurrence count of each byte value over the
first `dataSize` pixel bytes. -/
def bmp8_computeHistogram (img : t_bmp8) : ℕ → ℕ :=
  fun v => (img.data.take img.dataSize).countP (fun b => b = v)

/-- The cumulative histogram, exactly as the C loop
`cdf[0] = hist[0]; cdf[i] = cdf[i-1] + hist[i]`. -/
def cdfC (hist : ℕ → ℕ) : ℕ → ℕ
  | 0 => hist 0
  | i + 1 => cdfC hist i + hist (i + 1)

/-- `cdfmin`: the first nonzero cumulative value, scanning `i = 0..255`
(0 when the histogram is all zero, as in the C code). -/
def cdfminOf (hist : ℕ → ℕ) : ℕ :=
  match (List.range 256).find? (fun i => decide (0 < cdfC hist i)) with
  | some i => cdfC hist i
  | none => 0

/-- `bmp8_computeEqualizedHistogram`: `none` when `numPixels = 0`;
otherwise the equalization LUT.  When `numPixels - cdfmin ≤ 0` (computed
as a signed difference, as the C double subtraction) the identity mapping
is returned; otherwise
`lut[i] = min 255 (round((cdf[i] - cdfmin) * 255 / (numPixels - cdfmin)))`
with the numerator floored at zero.  (The C code's preliminary
`hist_eq[i] = 0` store for `cdf[i] == 0` is dead: it is unconditionally
overwritten by the formula, which yields 0 there.) -/
def bmp8_computeEqualizedHistogram (hist : ℕ → ℕ) (numPixels : ℕ) : Option (ℕ → ℕ) :=
  if numPixels = 0 then none
  else
    let cdfmin := cdfminOf hist
    some (fun i =>
      if (numPixels : ℤ) - (cdfmin : ℤ) ≤ 0 then i
      else
        let scale : ℚ := 255 / ((numPixels : ℚ) - (cdfmin : ℚ))
        min ((c_round ((cdfC hist i - cdfmin : ℕ) * scale)).toNat) 255)

/-- `bmp8_equalize`: compute the histogram over the pixel bytes, the LUT
with `numPixels = width*height`, and replace each byte `b` by
`(unsigned char) lut[b]` (the cast is the `% 256`). -/
def bmp8_equalize (img : t_bmp8) : t_bmp8 :=
  let hist := bmp8_computeHistogram img
  match bmp8_computeEqualizedHistogram hist (img.width * img.height) with
  | none => img
  | some hist_eq => { img with data := img.data.map (fun b => hist_eq b % 256) }

/-!
## 24-bit codec (`bmp24.c`)
-/

structure t_bmp_header where
  type : ℕ
  size : ℕ
  reserved1 : ℕ
  reserved2 : ℕ
  offset : ℕ
deriving DecidableEq

structure t_bmp_info where
  size : ℕ
  width : ℤ
  height : ℤ
  planes : ℕ
  bits : ℕ
  compression : ℕ
  imagesize : ℕ
  xresolution : ℤ
  yresolution : ℤ
  ncolors : ℕ
  importantcolors : ℕ
deriving DecidableEq

structure t_pixel where
  blue : ℕ
  green : ℕ
  red : ℕ
deriving DecidableEq

structure t_bmp24 where
  header : t_bmp_header
  header_info : t_bmp_info
  width : ℤ
  height : ℤ
  colorDepth : ℕ
  data : List (List t_pixel)
deriving DecidableEq

/-- `file_rawRead` into a struct buffer: byte `i` of the buffer is the file
byte at `pos + i` when available; a read past end-of-file leaves the
remaining buffer bytes whatever uninitialized memory held (`junk`) — the C
helper reports the error but does not propagate it. -/
def readRaw (file : List ℕ) (junk : ℕ → ℕ) (pos n : ℕ) : List ℕ :=
  (List.range n).map (fun i => if pos + i < file.length then file.getD (pos + i) 0 else junk (pos + i))

/-- Field layout of the packed 14-byte `t_bmp_header`. -/
def parse_bmp_header (b : List ℕ) : t_bmp_header :=
  { type := u16le (b.getD 0 0) (b.getD 1 0)
    size := u32le (b.getD 2 0) (b.getD 3 0) (b.getD 4 0) (b.getD 5 0)
    reserved1 := u16le (b.getD 6 0) (b.getD 7 0)
    reserved2 := u16le (b.getD 8 0) (b.getD 9 0)
    offset := u32le (b.getD 10 0) (b.getD 11 0) (b.getD 12 0) (b.getD 13 0) }

/-- The 14 bytes of a packed `t_bmp_header`. -/
def serialize_bmp_header (h : t_bmp_header) : List ℕ :=
  bytesOfU16 h.type ++ bytesOfU32 h.size ++ bytesOfU16 h.reserved1 ++
    bytesOfU16 h.reserved2 ++ bytesOfU32 h.offset

/-- Field layout of the packed 40-byte `t_bmp_info`. -/
def parse_bmp_info (b : List ℕ) : t_bmp_info :=
  { size := u32le (b.getD 0 0) (b.getD 1 0) (b.getD 2 0) (b.getD 3 0)
    width := asI32 (u32le (b.getD 4 0) (b.getD 5 0) (b.getD 6 0) (b.getD 7 0))
    height := asI32 (u32le (b.getD 8 0) (b.getD 9 0) (b.getD 10 0) (b.getD 11 0))
    planes := u16le (b.getD 12 0) (b.getD 13 0)
    bits := u16le (b.getD 14 0) (b.getD 15 0)
    compression := u32le (b.getD 16 0) (b.getD 17 0) (b.getD 18 0) (b.getD 19 0)
    imagesize := u32le (b.getD 20 0) (b.getD 21 0) (b.getD 22 0) (b.getD 23 0)
    xresolution := asI32 (u32le (b.getD 24 0) (b.getD 25 0) (b.getD 26 0) (b.getD 27 0))
    yresolution := asI32 (u32le (b.getD 28 0) (b.getD 29 0) (b.getD 30 0) (b.getD 31 0))
    ncolors := u32le (b.getD 32 0) (b.getD 33 0) (b.getD 34 0) (b.getD 35 0)
    importantcolors := u32le (b.getD 36 0) (b.getD 37 0) (b.getD 38 0) (b.getD 39 0) }

/-- The 40 bytes of a packed `t_bmp_info`. -/
def serialize_bmp_info (i : t_bmp_info) : List ℕ :=
  bytesOfU32 i.size ++ bytesOfI32 i.width ++ bytesOfI32 i.height ++
    bytesOfU16 i.planes ++ bytesOfU16 i.bits ++ bytesOfU32 i.compression ++
    bytesOfU32 i.imagesize ++ bytesOfI32 i.xresolution ++ bytesOfI32 i.yresolution ++
    bytesOfU32 i.ncolors ++ bytesOfU32 i.importantcolors

/-- The file header `bmp24_loadImage` obtains for a given file (and junk
pattern for bytes past end-of-file). -/
def bmp24_fileHeaderOf (file : List ℕ) (junkB : ℕ → ℕ) : t_bmp_header :=
  parse_bmp_header (readRaw file junkB 0 14)

/-- The info header `bmp24_loadImage` obtains for a given file. -/
def bmp24_fileInfoOf (file : List ℕ) (junkB : ℕ → ℕ) : t_bmp_info :=
  parse_bmp_info (readRaw file junkB 14 40)

/-- The padded on-disk row size for a 24-bit row of `w` pixels:
`w*3` data bytes plus `(4 - (w*3 % 4)) % 4` padding bytes. -/
def rowPaddedOf (w : ℕ) : ℕ := w * 3 + (4 - (w * 3) % 4) % 4

/-- `bmp24_allocateDataPixels`: `none` for non-positive dimensions,
otherwise a `height × width` matrix whose contents are whatever the heap
held (`junkP`): the zero-initializing `memset` in the source is commented
out, so the buffer is uninitialized. -/
def bmp24_allocateDataPixels (junkP : ℕ → t_pixel) (width height : ℤ) :
    Option (List (List t_pixel)) :=
  if width ≤ 0 ∨ height ≤ 0 then none
  else some ((List.range height.toNat).map (fun y =>
    (List.range width.toNat).map (fun x => junkP (y * width.toNat + x))))

/-- `bmp24_allocate`: allocate the pixel matrix (propagating failure) and
derive the default header fields: `offset = 14 + 40`,
`row_size = ((width*3*8 + 31) / 32) * 4`, `imagesize = row_size * |height|`,
file `size = offset + imagesize`, resolution fields 0.  `row_size`,
`imagesize` and `size` are `uint32_t` stores in C: each value is
truncated mod `2^32`, so e.g. width 2 with height `2^29` stores
`imagesize = 0` and `size = 54`. -/
def bmp24_allocate (junkP : ℕ → t_pixel) (width height : ℤ) : Option t_bmp24 :=
  match bmp24_allocateDataPixels junkP width height with
  | none => none
  | some data =>
    let row_size : ℕ := (((width.toNat * 3 * 8 + 31) / 32) * 4) % 2 ^ 32
    let imagesize := (row_size * height.natAbs) % 2 ^ 32
    some { header := { type := 0x4D42, size := (54 + imagesize) % 2 ^ 32, reserved1 := 0,
                       reserved2 := 0, offset := 54 },
           header_info := { size := 40, width := width, height := height, planes := 1,
                            bits := 24, compression := 0, imagesize := imagesize,
                            xresolution := 0, yresolution := 0, ncolors := 0,
                            importantcolors := 0 },
           width := width, height := height, colorDepth := 24, data := data }

/-- One in-memory pixel row decoded from the padded file row starting at
byte `pos`: pixel `x` is the BGR triple at bytes `pos+3x .. pos+3x+2`. -/
def parseRowAt (file : List ℕ) (pos w : ℕ) : List t_pixel :=
  (List.range w).map (fun x =>
    { blue := file.getD (pos + 3 * x) 0, green := file.getD (pos + 3 * x + 1) 0,
      red := file.getD (pos + 3 * x + 2) 0 })

/-- `bmp24_readPixelData`: seek to the header's pixel-data offset and read
`height` padded rows sequentially, storing the `k`-th row read into
in-memory row `height-1-k` (the code reads bottom-up into a top-down
buffer).  A short read on some row stops the loop and RETURNS, leaving the
not-yet-read rows (in-memory rows `0 .. height-1-rowsRead`) with their
previous (uninitialized) contents; the error is printed, not propagated.
`rowsRead` counts the rows that fit entirely in the file. -/
def bmp24_readPixelData (image : t_bmp24) (file : List ℕ) : t_bmp24 :=
  let w := image.width.toNat
  let h := image.height.toNat
  let offset := image.header.offset
  let row_padded := rowPaddedOf w
  let avail := if offset ≤ file.length ∧ 0 < row_padded
    then (file.length - offset) / row_padded else 0
  let rowsRead := min h avail
  { image with data := (List.range h).map (fun y =>
      if h - 1 - y < rowsRead then parseRowAt file (offset + (h - 1 - y) * row_padded) w
      else image.data.getD y []) }

/-- `bmp24_loadImage`: parse the two headers (buffer bytes past
end-of-file come from uninitialized memory `junkB`), check signature,
24-bit depth and no compression, take `height = abs(infoHeader.height)`,
reject non-positive dimensions, allocate, overwrite the allocated headers
with the ones read from the file, and read the pixel data.  A pixel-data
short read is NOT checked (the source has a TODO for it), so the image is
returned even when `bmp24_readPixelData` failed partway. -/
def bmp24_loadImage (junkP : ℕ → t_pixel) (junkB : ℕ → ℕ) (file : List ℕ) : Option t_bmp24 :=
  let header := bmp24_fileHeaderOf file junkB
  if header.type ≠ 0x4D42 then none
  else
    let header_info := bmp24_fileInfoOf file junkB
    if header_info.bits ≠ 24 then none
    else if header_info.compression ≠ 0 then none
    else
      let width := header_info.width
      let height : ℤ := (header_info.height.natAbs : ℤ)
      if width ≤ 0 ∨ height ≤ 0 then none
      else
        match bmp24_allocate junkP width height with
        | none => none
        | some img0 =>
          let img1 : t_bmp24 :=
            { img0 with
              header := header, header_info := header_info,
              width := width, height := height, colorDepth := header_info.bits }
          some (bmp24_readPixelData img1 file)

/-- One padded on-disk row as written by `bmp24_writePixelData`: row `k`
of the pixel region is in-memory row `height-1-k` — its pixels' BGR bytes
followed by `(4 - (width*3 % 4)) % 4` zero padding bytes. -/
def bmp24_rowBytes (image : t_bmp24) (k : ℕ) : List ℕ :=
  (image.data.getD (image.height.toNat - 1 - k) []).flatMap (fun p => [p.blue, p.green, p.red])
    ++ List.replicate ((4 - (image.width.toNat * 3) % 4) % 4) 0

/-- `bmp24_writePixelData`: the pixel-data byte region — `height` padded
rows written bottom-up (in-memory row `height-1-k` is the `k`-th row of
the region), each row the BGR bytes of its pixels followed by zero
padding bytes. -/
def bmp24_writePixelData (image : t_bmp24) : List ℕ :=
  (List.range image.height.toNat).flatMap (bmp24_rowBytes image)

/-- `bmp24_saveImage`: recompute ("self-heal") every header field from the
current width/height — signature, `size = 40`, `planes = 1`, `bits = 24`,
`compression = 0`, recomputed `imagesize` and file size, `offset = 54`,
zero reserved, resolution and color-count fields, and `height` as stored
in the image (always positive after a load) — then emit file header, info
header and pixel data contiguously from byte 0. -/
def bmp24_saveImage (img : t_bmp24) : List ℕ :=
  let row_size : ℕ := ((img.width.toNat * 3 * 8 + 31) / 32) * 4
  let imagesize := row_size * img.height.natAbs
  let header : t_bmp_header := { type := 0x4D42, size := 54 + imagesize, reserved1 := 0,
                                 reserved2 := 0, offset := 54 }
  let header_info : t_bmp_info := { size := 40, width := img.width, height := img.height,
                                    planes := 1, bits := 24, compression := 0,
                                    imagesize := imagesize, xresolution := 0, yresolution := 0,
                                    ncolors := 0, importantcolors := 0 }
  serialize_bmp_header header ++ serialize_bmp_info header_info ++ bmp24_writePixelData img

/-- `bmp24_negative`: invert every channel of every pixel. -/
def bmp24_negative (img : t_bmp24) : t_bmp24 :=
  { img with data := img.data.map (fun row => row.map (fun p =>
      { blue := 255 - p.blue, green := 255 - p.green, red := 255 - p.red })) }

/-- `bmp24_grayscale`: set all three channels to the rounded clamped
luminance `0.299 R + 0.587 G + 0.114 B`. -/
def bmp24_grayscale (img : t_bmp24) : t_bmp24 :=
  { img with data := img.data.map (fun row => row.map (fun p =>
      let gray := clamp_u8 (c_trunc ((299/1000 : ℚ) * p.red + (587/1000 : ℚ) * p.green +
        (114/1000 : ℚ) * p.blue + 1/2))
      { blue := gray, green := gray, red := gray })) }

/-- `bmp24_brightness`: add `value` to every channel, clamped. -/
def bmp24_brightness (img : t_bmp24) (value : ℤ) : t_bmp24 :=
  { img with data := img.data.map (fun row => row.map (fun p =>
      { blue := clamp_u8 ((p.blue : ℤ) + value), green := clamp_u8 ((p.green : ℤ) + value),
        red := clamp_u8 ((p.red : ℤ) + value) })) }

/-- The sequential coordinate clamp of `bmp24_convolution`:
`if (n < 0) n = 0; if (n >= size) n = size - 1;`. -/
def clampIdx (n size : ℤ) : ℤ :=
  let n1 := if n < 0 then 0 else n
  if n1 ≥ size then size - 1 else n1

/-- `bmp24_convolution`: the kernel-weighted sum of the neighborhood of
`(x, y)` read from `original_data`, with out-of-bounds neighbor
coordinates clamped to the nearest valid row/column, each channel rounded
by `(int)(sum + 0.5f)` and clamped to a byte. -/
def bmp24_convolution (img : t_bmp24) (x y : ℤ) (kernel : List (List ℚ)) (kernelSize : ℕ)
    (original_data : List (List t_pixel)) : t_pixel :=
  let r : ℤ := (kernelSize / 2 : ℕ)
  let tap : ℕ → ℕ → t_pixel := fun a b =>
    let cy := clampIdx (y + a - r) img.height
    let cx := clampIdx (x + b - r) img.width
    (original_data.getD cy.toNat []).getD cx.toNat { blue := 0, green := 0, red := 0 }
  let kv : ℕ → ℕ → ℚ := fun a b => (kernel.getD a []).getD b 0
  let sum_r : ℚ := ∑ a ∈ Finset.range kernelSize, ∑ b ∈ Finset.range kernelSize,
    ((tap a b).red : ℚ) * kv a b
  let sum_g : ℚ := ∑ a ∈ Finset.range kernelSize, ∑ b ∈ Finset.range kernelSize,
    ((tap a b).green : ℚ) * kv a b
  let sum_b : ℚ := ∑ a ∈ Finset.range kernelSize, ∑ b ∈ Finset.range kernelSize,
    ((tap a b).blue : ℚ) * kv a b
  { blue := clamp_u8 (c_trunc (sum_b + 1/2)), green := clamp_u8 (c_trunc (sum_g + 1/2)),
    red := clamp_u8 (c_trunc (sum_r + 1/2)) }

/-- `bmp24_applyFilter`: reject a non-positive or even kernel size (image
unchanged); otherwise snapshot the pixel matrix and recompute EVERY pixel
(including the whole border) as `bmp24_convolution` of the snapshot. -/
def bmp24_applyFilter (img : t_bmp24) (kernel : List (List ℚ)) (kernelSize : ℕ) : t_bmp24 :=
  if kernelSize = 0 ∨ kernelSize % 2 = 0 then img
  else
    let original_data := img.data
    { img with data := (List.range img.height.toNat).map (fun (y : ℕ) =>
        (List.range img.width.toNat).map (fun (x : ℕ) =>
          bmp24_convolution img (x : ℤ) (y : ℤ) kernel kernelSize original_data)) }

/-- The RGB→YUV conversion of `bmp24_equalize` (Y, U, V in that order). -/
def yuvOfPixel (p : t_pixel) : ℚ × ℚ × ℚ :=
  ((299/1000 : ℚ) * p.red + (587/1000 : ℚ) * p.green + (114/1000 : ℚ) * p.blue,
   -(14713/100000 : ℚ) * p.red - (28886/100000 : ℚ) * p.green + (436/1000 : ℚ) * p.blue,
   (615/1000 : ℚ) * p.red - (51499/100000 : ℚ) * p.green - (10001/100000 : ℚ) * p.blue)

/-- `bmp24_equalize`: per pixel compute YUV and the clamped-rounded
integer Y byte; histogram the Y bytes, build the equalization LUT with
`numPixels = width*height`, then rebuild every pixel from the equalized Y
(looked up by the original integer Y) and the original U, V, each channel
clamped and rounded back to a byte.  An early LUT failure leaves the
image unmodified. -/
def bmp24_equalize (img : t_bmp24) : t_bmp24 :=
  let numPixels := img.width.toNat * img.height.toNat
  let y_int : t_pixel → ℕ := fun p => clamp_u8_f (yuvOfPixel p).1
  let hist_y : ℕ → ℕ := fun v => (img.data.flatMap (fun row => row.map y_int)).countP (fun b => b = v)
  match bmp8_computeEqualizedHistogram hist_y numPixels with
  | none => img
  | some hist_y_eq =>
    { img with data := img.data.map (fun row => row.map (fun p =>
        let uv := yuvOfPixel p
        let U := uv.2.1
        let V := uv.2.2
        let Y_eq : ℚ := (hist_y_eq (y_int p) : ℚ)
        { red := clamp_u8_f (Y_eq + (113983/100000 : ℚ) * V),
          green := clamp_u8_f (Y_eq - (39465/100000 : ℚ) * U - (58060/100000 : ℚ) * V),
          blue := clamp_u8_f (Y_eq + (203211/100000 : ℚ) * U) })) }

/-!
## Validity predicates
-/

/-- A structurally valid 8-bit image: positive dimensions, a pixel buffer
of exactly `dataSize = width*height` bytes, all of them bytes. -/
def Valid8 (img : t_bmp8) : Prop :=
  0 < img.width ∧ 0 < img.height ∧ img.data.length = img.dataSize ∧
    img.dataSize = img.width * img.height ∧ ∀ b ∈ img.data, b ≤ 255

/-- A structurally valid 24-bit image: positive in-range dimensions and a
`height × width` pixel matrix whose channels are bytes. -/
def Valid24 (img : t_bmp24) : Prop :=
  0 < img.width ∧ img.width < 2 ^ 31 ∧ 0 < img.height ∧ img.height < 2 ^ 31 ∧
    img.data.length = img.height.toNat ∧ (∀ row ∈ img.data, row.length = img.width.toNat) ∧
    ∀ row ∈ img.data, ∀ p ∈ row, p.blue ≤ 255 ∧ p.green ≤ 255 ∧ p.red ≤ 255

/-- An 8-bit BMP file in canonical layout: valid signature and depth,
pixel data starting immediately after header and palette (offset 1078)
and extending exactly to end of file.  `bmp8_saveImage` emits exactly this
layout, so only such files can round-trip byte-for-byte. -/
def Canon8 (f : List ℕ) : Prop :=
  1078 ≤ f.length ∧ f.getD 0 0 = 66 ∧ f.getD 1 0 = 77 ∧
  bmp8_depthOf (f.take 54) = 8 ∧ bmp8_offsetOf (f.take 54) = 1078 ∧
  f.length = 1078 + bmp8_dataSizeOf (f.take 54)

/-- The in-place processing operations touch nothing of a `t_bmp8` except
the pixel bytes: dimensions, depth, `dataSize`, the 54-byte header block
and the 1024-byte color table are preserved. -/
def Frame8 (a b : t_bmp8) : Prop :=
  a.width = b.width ∧ a.height = b.height ∧ a.colorDepth = b.colorDepth ∧
    a.dataSize = b.dataSize ∧ a.header = b.header ∧ a.colorTable = b.colorTable

/-- The in-place processing operations touch nothing of a `t_bmp24` except
the pixel matrix: dimensions, depth and both header records are preserved. -/
def Frame24 (a b : t_bmp24) : Prop :=
  a.width = b.width ∧ a.height = b.height ∧ a.colorDepth = b.colorDepth ∧
    a.header = b.header ∧ a.header_info = b.header_info

/-!
## Concrete inputs used by witnesses and counterexamples
-/

/-- A fixed junk-pixel pattern standing for uninitialized heap contents. -/
def junkP0 : ℕ → t_pixel := fun _ => { blue := 7, green := 7, red := 7 }

/-- A fixed junk-byte pattern standing for uninitialized struct memory. -/
def junkB0 : ℕ → ℕ := fun _ => 0

/-- The specification's 2×2 scenario image with bytes `[10,20,30,40]`. -/
def img8ex : t_bmp8 :=
  { header := [], colorTable := [], data := [10, 20, 30, 40], width := 2, height := 2,
    colorDepth := 8, dataSize := 4 }

/-- The all-zero pixel (the `{0, 0, 0}` initializer in the source). -/
def pix0 : t_pixel := { blue := 0, green := 0, red := 0 }

/-- A concrete valid 2×2 24-bit image. -/
def img24ex2 : t_bmp24 :=
  { header := { type := 0x4D42, size := 70, reserved1 := 0, reserved2 := 0, offset := 54 },
    header_info := { size := 40, width := 2, height := 2, planes := 1, bits := 24,
                     compression := 0, imagesize := 16, xresolution := 0, yresolution := 0,
                     ncolors := 0, importantcolors := 0 },
    width := 2, height := 2, colorDepth := 24,
    data := [[{ blue := 10, green := 11, red := 12 }, { blue := 20, green := 21, red := 22 }],
             [{ blue := 30, green := 31, red := 32 }, { blue := 40, green := 41, red := 42 }]] }

/-- A concrete valid 1×1 24-bit image. -/
def img24ex : t_bmp24 :=
  { header := { type := 0x4D42, size := 58, reserved1 := 0, reserved2 := 0, offset := 54 },
    header_info := { size := 40, width := 1, height := 1, planes := 1, bits := 24,
                     compression := 0, imagesize := 4, xresolution := 0, yresolution := 0,
                     ncolors := 0, importantcolors := 0 },
    width := 1, height := 1, colorDepth := 24,
    data := [[{ blue := 1, green := 2, red := 3 }]] }

/-- A well-formed 1×1 24-bit BMP file whose info header records a
horizontal resolution of 2835 pixels/meter (72 DPI). -/
def cexFile : List ℕ :=
  serialize_bmp_header { type := 0x4D42, size := 58, reserved1 := 0, reserved2 := 0,
                         offset := 54 } ++
  serialize_bmp_info { size := 40, width := 1, height := 1, planes := 1, bits := 24,
                       compression := 0, imagesize := 4, xresolution := 2835, yresolution := 0,
                       ncolors := 0, importantcolors := 0 } ++ [1, 2, 3, 0]

/-- A 1×2 24-bit BMP file with valid headers whose pixel data is
truncated: only one of the two 4-byte rows is present. -/
def truncFile : List ℕ :=
  serialize_bmp_header { type := 0x4D42, size := 62, reserved1 := 0, reserved2 := 0,
                         offset := 54 } ++
  serialize_bmp_info { size := 40, width := 1, height := 2, planes := 1, bits := 24,
                       compression := 0, imagesize := 8, xresolution := 0, yresolution := 0,
                       ncolors := 0, importantcolors := 0 } ++ [5, 6, 7, 0]

/-- A 54-byte 8-bit BMP header with the given width, height and raw
dataSize fields, pixel-data offset 1078 and depth 8. -/
def mk8Header (w h ds : ℕ) : List ℕ :=
  [66, 77] ++ bytesOfU32 (1078 + ds) ++ [0, 0, 0, 0] ++ bytesOfU32 1078 ++ bytesOfU32 40 ++
  bytesOfU32 w ++ bytesOfU32 h ++ [1, 0] ++ bytesOfU16 8 ++ bytesOfU32 0 ++ bytesOfU32 ds ++
  List.replicate 16 0

/-- A well-formed 2×2 8-bit BMP file whose header records `dataSize = 5`,
with 5 pixel bytes present — `dataSize ≠ width*height`. -/
def cex8File : List ℕ := mk8Header 2 2 5 ++ List.replicate 1024 9 ++ [1, 2, 3, 4, 5]

/-- A well-formed 1×1 8-bit BMP file with `dataSize = 1`. -/
def wit8File : List ℕ := mk8Header 1 1 1 ++ List.replicate 1024 9 ++ [5]

/-- The image `bmp8_loadImage` produces for `wit8File`. -/
def img8load : t_bmp8 :=
  { header := mk8Header 1 1 1, colorTable := List.replicate 1024 9, data := [5],
    width := 1, height := 1, colorDepth := 8, dataSize := 1 }

/-- A 1×2 24-bit BMP file with negative (top-down) height: the row stored
first, `(1,1,1)`, is the topmost image row; the row stored second,
`(2,2,2)`, is the bottommost. -/
def negHFile : List ℕ :=
  serialize_bmp_header { type := 0x4D42, size := 62, reserved1 := 0, reserved2 := 0,
                         offset := 54 } ++
  serialize_bmp_info { size := 40, width := 1, height := -2, planes := 1, bits := 24,
                       compression := 0, imagesize := 8, xresolution := 0, yresolution := 0,
                       ncolors := 0, importantcolors := 0 } ++ [1, 1, 1, 0, 2, 2, 2, 0]

/-!
## General list lemmas
-/

lemma getD_range_map {α : Type _} (f : ℕ → α) {n i : ℕ} (d : α) (h : i < n) :
    ((List.range n).map f).getD i d = f i := by
  rw [List.getD_eq_getElem?_getD, List.getElem?_map, List.getElem?_range h]
  rfl

lemma range_map_getD_self {α : Type _} (l : List α) (d : α) :
    (List.range l.length).map (fun i => l.getD i d) = l := by
  apply List.ext_getElem
  · simp
  · intro i h1 h2
    simp [List.getD_eq_getElem?_getD, List.getElem?_eq_getElem h2]

lemma getD_append_lt {α : Type _} {l1 l2 : List α} {n : ℕ} (d : α) (h : n < l1.length) :
    (l1 ++ l2).getD n d = l1.getD n d := by
  rw [List.getD_eq_getElem?_getD, List.getD_eq_getElem?_getD, List.getElem?_append_left h]

lemma getD_append_ge {α : Type _} {l1 l2 : List α} {n : ℕ} (d : α) (h : l1.length ≤ n) :
    (l1 ++ l2).getD n d = l2.getD (n - l1.length) d := by
  rw [List.getD_eq_getElem?_getD, List.getD_eq_getElem?_getD, List.getElem?_append_right h]

lemma map_self_of_mem {α : Type _} {l : List α} {f : α → α} (h : ∀ b ∈ l, f b = b) :
    l.map f = l :=
  (List.map_congr_left h).trans (List.map_id l)

/-- Inversion of a successful `bmp8_loadImage`: the file passed all checks
and the image is built from the three reads. -/
lemma bmp8_loadImage_inv {file : List ℕ} {img : t_bmp8} (h : bmp8_loadImage file = some img) :
    ∃ header colorTable data,
      readBytes file 0 54 = some header ∧
      header.getD 0 0 = 66 ∧ header.getD 1 0 = 77 ∧ bmp8_depthOf header = 8 ∧
      readBytes file 54 1024 = some colorTable ∧
      readBytes file (bmp8_offsetOf header) (bmp8_dataSizeOf header) = some data ∧
      img = { header := header, colorTable := colorTable, data := data,
              width := bmp8_widthOf header, height := bmp8_heightOf header,
              colorDepth := bmp8_depthOf header, dataSize := bmp8_dataSizeOf header } := by
  unfold bmp8_loadImage at h
  cases hr : readBytes file 0 54 with
  | none => rw [hr] at h; exact absurd h (by simp)
  | some header =>
    rw [hr] at h
    dsimp only at h
    split_ifs at h with hsig hdep
    cases hct : readBytes file 54 1024 with
    | none => rw [hct] at h; exact absurd h (by simp)
    | some colorTable =>
      rw [hct] at h
      dsimp only at h
      cases hdata : readBytes file (bmp8_offsetOf header) (bmp8_dataSizeOf header) with
      | none => rw [hdata] at h; exact absurd h (by simp)
      | some data =>
        rw [hdata] at h
        dsimp only at h
        exact ⟨header, colorTable, data, rfl, hsig.1, hsig.2, hdep, rfl, hdata,
          (Option.some.inj h).symm⟩

/-!
## Claims
-/

/-- Claim C2 (code bug): on a 24-bit file with valid headers but truncated
pixel data, `bmp24_loadImage` is supposed to fail with an I/O error and
return no handle; instead the short read in `bmp24_readPixelData` is not
propagated and the loader returns a half-initialized image.  Here
`truncFile` declares height 2 but contains one pixel row: the load
returns `some` image whose row 0 still holds the uninitialized heap
pattern `junkP0` (7,7,7) and whose row 1 holds the one row read (5,6,7). -/
theorem C2_truncated_load_returns_handle :
    (bmp24_loadImage junkP0 junkB0 truncFile).map (fun img => img.data) =
      some [[{ blue := 7, green := 7, red := 7 }], [{ blue := 5, green := 6, red := 7 }]] := by
  decide

/-- Counterexample to claim C4: for `negHFile` (height field −2, rows
stored top-down, top row (1,1,1), bottom row (2,2,2)), the loaded image
has in-memory row 0 equal to the BOTTOM image row (2,2,2), not the topmost
row — the loader reads rows as if they were bottom-up regardless of the
height sign, so top-down files come out vertically flipped. -/
theorem C4_counterexample :
    (bmp24_loadImage junkP0 junkB0 negHFile).map (fun i => (i.height, i.data)) =
      some (2, [[{ blue := 2, green := 2, red := 2 }], [{ blue := 1, green := 1, red := 1 }]]) ∧
    ({ blue := 2, green := 2, red := 2 } : t_pixel) ≠ { blue := 1, green := 1, red := 1 } := by
  decide

/-- Counterexample to claim C5: the pixel buffer returned by
`bmp24_allocate` is NOT zeroed — the zero-initializing `memset` is
commented out in the source, so the buffer holds whatever the heap held
(here the junk pattern (7,7,7)). -/
theorem C5_counterexample :
    (bmp24_allocate junkP0 1 1).map (fun img => img.data) =
      some [[{ blue := 7, green := 7, red := 7 }]] ∧
    ({ blue := 7, green := 7, red := 7 } : t_pixel) ≠ { blue := 0, green := 0, red := 0 } := by
  decide

/-- Claim C5 as amended: for positive dimensions `bmp24_allocate` returns
an image with `offset = 14+40 = 54`; its `imagesize` and file-size fields
are the C `uint32_t` stores, so `imagesize = ((ceil(width*3/4)*4) *
height) mod 2^32` and `size = (54 + imagesize) mod 2^32`, which coincide
with the claim's `rowSizePadded*height` and `offset+imagesize` exactly
when the file size fits in 32 bits; resolution fields are 0, depth 24,
and the `height × width` pixel buffer contents are unspecified
(uninitialized); for `width ≤ 0` or `height ≤ 0` it returns no image. -/
theorem C5_allocate_fields (junkP : ℕ → t_pixel) (width height : ℤ) :
    (0 < width → 0 < height → ∃ img, bmp24_allocate junkP width height = some img ∧
      img.header.offset = 54 ∧
      img.header_info.imagesize = (((width.toNat * 3 + 3) / 4 * 4) * height.toNat) % 2 ^ 32 ∧
      img.header.size = (54 + img.header_info.imagesize) % 2 ^ 32 ∧
      (54 + ((width.toNat * 3 + 3) / 4 * 4) * height.toNat < 2 ^ 32 →
        img.header_info.imagesize = ((width.toNat * 3 + 3) / 4 * 4) * height.toNat ∧
        img.header.size = 54 + img.header_info.imagesize) ∧
      img.header_info.xresolution = 0 ∧ img.header_info.yresolution = 0 ∧
      img.colorDepth = 24 ∧ img.width = width ∧ img.height = height ∧
      img.data.length = height.toNat ∧ (∀ row ∈ img.data, row.length = width.toNat)) ∧
    ((width ≤ 0 ∨ height ≤ 0) → bmp24_allocate junkP width height = none) := by
  constructor
  · intro hw hh
    have hnot : ¬(width ≤ 0 ∨ height ≤ 0) := by omega
    have hceil : ((width.toNat * 3 * 8 + 31) / 32) * 4 = (width.toNat * 3 + 3) / 4 * 4 := by
      omega
    have habs : height.natAbs = height.toNat := by omega
    have hmod : ((((width.toNat * 3 * 8 + 31) / 32) * 4) % 2 ^ 32 * height.natAbs) % 2 ^ 32 =
        (((width.toNat * 3 + 3) / 4 * 4) * height.toNat) % 2 ^ 32 := by
      rw [hceil, habs, Nat.mod_mul_mod]
    simp only [bmp24_allocate, bmp24_allocateDataPixels, if_neg hnot]
    refine ⟨_, rfl, rfl, hmod, rfl, ?_, rfl, rfl, rfl, rfl, rfl, ?_, ?_⟩
    · intro hb
      have him : ((((width.toNat * 3 * 8 + 31) / 32) * 4) % 2 ^ 32 * height.natAbs) % 2 ^ 32 =
          ((width.toNat * 3 + 3) / 4 * 4) * height.toNat :=
        hmod.trans (Nat.mod_eq_of_lt (by omega))
      refine ⟨him, ?_⟩
      rw [him]
      exact Nat.mod_eq_of_lt (by omega)
    · simp
    · intro row hrow
      simp only [List.mem_map] at hrow
      obtain ⟨y, -, rfl⟩ := hrow
      simp
  · intro h
    simp only [bmp24_allocate, bmp24_allocateDataPixels, if_pos h]

/-- Witness for C5: both branches of `C5_allocate_fields` at concrete
inputs (a 2×3 allocation, where the size bound holds, and a rejected
width-0 allocation). -/
theorem C5_witness :
    (∃ img, bmp24_allocate junkP0 2 3 = some img ∧
      img.header.offset = 54 ∧
      img.header_info.imagesize = ((((2 : ℤ).toNat * 3 + 3) / 4 * 4) * (3 : ℤ).toNat) % 2 ^ 32 ∧
      img.header.size = (54 + img.header_info.imagesize) % 2 ^ 32 ∧
      (54 + (((2 : ℤ).toNat * 3 + 3) / 4 * 4) * (3 : ℤ).toNat < 2 ^ 32 →
        img.header_info.imagesize = (((2 : ℤ).toNat * 3 + 3) / 4 * 4) * (3 : ℤ).toNat ∧
        img.header.size = 54 + img.header_info.imagesize) ∧
      img.header_info.xresolution = 0 ∧ img.header_info.yresolution = 0 ∧
      img.colorDepth = 24 ∧ img.width = 2 ∧ img.height = 3 ∧
      img.data.length = (3 : ℤ).toNat ∧ (∀ row ∈ img.data, row.length = (2 : ℤ).toNat)) ∧
    bmp24_allocate junkP0 0 1 = none :=
  ⟨(C5_allocate_fields junkP0 2 3).1 (by decide) (by decide),
   (C5_allocate_fields junkP0 0 1).2 (by decide)⟩

/-- Counterexample to claim C6: `cex8File` is a well-formed 2×2 8-bit file
whose header records `dataSize = 5`; it loads successfully with
`dataSize = 5 ≠ 4 = width*height` — a nonzero header field is taken
as-is, never checked against `width*height`. -/
theorem C6_counterexample :
    (bmp8_loadImage cex8File).map (fun i => (i.dataSize, i.width * i.height)) = some (5, 4) ∧
    (5 : ℕ) ≠ 4 := by decide

/-- Claim C6 as amended: after a successful `bmp8_loadImage`, `dataSize`
is the normalization of the raw header field — equal to `width*height`
when the field read as 0, and equal to the raw field otherwise (with no
check against `width*height`). -/
theorem C6_dataSize_normalization (file : List ℕ) (img : t_bmp8)
    (h : bmp8_loadImage file = some img) :
    (bmp8_rawDataSizeOf img.header = 0 → img.dataSize = img.width * img.height) ∧
    img.dataSize = bmp8_dataSizeOf img.header := by
  obtain ⟨header, colorTable, data, -, -, -, -, -, -, rfl⟩ := bmp8_loadImage_inv h
  exact ⟨fun h0 => by simp [bmp8_dataSizeOf, h0], rfl⟩

/-- Witness for C6: `C6_dataSize_normalization` at the concrete file
`wit8File`, which loads to `img8load`. -/
theorem C6_witness :
    (bmp8_rawDataSizeOf img8load.header = 0 →
      img8load.dataSize = img8load.width * img8load.height) ∧
    img8load.dataSize = bmp8_dataSizeOf img8load.header :=
  C6_dataSize_normalization wit8File img8load (by decide)

/-- Claim C7: for the 2×2 8-bit image with bytes `[10,20,30,40]` and
`dataSize` 4, the histogram has count 1 at 10, 20, 30 and 40 and 0 at
every other intensity; the equalization LUT for `numPixels = 4` has
`cdfmin = 1` and maps 10 to 0 and 40 to 255. -/
theorem C7_histogram_scenario :
    (bmp8_computeHistogram img8ex 10 = 1 ∧ bmp8_computeHistogram img8ex 20 = 1 ∧
      bmp8_computeHistogram img8ex 30 = 1 ∧ bmp8_computeHistogram img8ex 40 = 1) ∧
    (∀ i ∈ Finset.range 256, i ∉ ({10, 20, 30, 40} : Finset ℕ) →
      bmp8_computeHistogram img8ex i = 0) ∧
    cdfminOf (bmp8_computeHistogram img8ex) = 1 ∧
    (bmp8_computeEqualizedHistogram (bmp8_computeHistogram img8ex) 4).map
      (fun l => (l 10, l 40)) = some (0, 255) := by
  refine ⟨by decide, by decide, by decide, ?_⟩
  have hmin : cdfminOf (bmp8_computeHistogram img8ex) = 1 := by decide
  have h10 : cdfC (bmp8_computeHistogram img8ex) 10 = 1 := by decide
  have h40 : cdfC (bmp8_computeHistogram img8ex) 40 = 4 := by decide
  simp only [bmp8_computeEqualizedHistogram, hmin]
  norm_num [c_round, h10, h40]
  decide

/-- Claim C9: on valid images (all pixel bytes ≤ 255), applying the
negative operation twice restores every pixel byte exactly, for both the
8-bit and the 24-bit codec. -/
theorem C9_negative_involution :
    (∀ img : t_bmp8, Valid8 img → bmp8_negative (bmp8_negative img) = img) ∧
    (∀ img : t_bmp24, Valid24 img → bmp24_negative (bmp24_negative img) = img) := by
  constructor
  · rintro ⟨hd, ct, data, w, h, cd, ds⟩ ⟨-, -, -, -, hb⟩
    simp only [bmp8_negative, List.map_map, t_bmp8.mk.injEq, true_and, and_true]
    apply map_self_of_mem
    intro b hb2
    have := hb b hb2
    simp only [Function.comp_apply]
    omega
  · rintro ⟨hd, hi, w, h, cd, data⟩ ⟨-, -, -, -, -, -, hb⟩
    simp only [bmp24_negative, List.map_map, t_bmp24.mk.injEq, true_and, and_true]
    apply map_self_of_mem
    intro row hrow
    simp only [Function.comp_apply, List.map_map]
    apply map_self_of_mem
    intro p hp
    have h3 := hb row hrow p hp
    obtain ⟨b1, g1, r1⟩ := p
    simp only [Function.comp_apply, t_pixel.mk.injEq]
    simp only at h3
    omega

/-- Witness for C9: both halves at concrete valid images. -/
theorem C9_witness :
    bmp8_negative (bmp8_negative img8ex) = img8ex ∧
    bmp24_negative (bmp24_negative img24ex) = img24ex :=
  ⟨C9_negative_involution.1 img8ex ⟨by decide, by decide, by decide, by decide, by decide⟩,
   C9_negative_involution.2 img24ex
     ⟨by decide, by decide, by decide, by decide, by decide, by decide, by decide⟩⟩

/-- Claim C10: every in-place processing operation (negative, brightness,
threshold, grayscale, filtering with a valid kernel, equalization)
modifies only pixel bytes: dimensions, depth and `dataSize` are unchanged,
and for the 8-bit codec the 54-byte header block and the 1024-byte palette
block are byte-identical before and after (for the 24-bit codec both
header records are likewise unchanged). -/
theorem C10_frame_effects :
    (∀ img : t_bmp8, Frame8 (bmp8_negative img) img) ∧
    (∀ (img : t_bmp8) (value : ℤ), Frame8 (bmp8_brightness img value) img) ∧
    (∀ (img : t_bmp8) (t : ℤ), Frame8 (bmp8_threshold img t) img) ∧
    (∀ (img : t_bmp8) (kernel : List (List ℚ)) (kernelSize : ℕ), kernelSize % 2 = 1 →
      Frame8 (bmp8_applyFilter img kernel kernelSize) img) ∧
    (∀ img : t_bmp8, Frame8 (bmp8_equalize img) img) ∧
    (∀ img : t_bmp24, Frame24 (bmp24_negative img) img) ∧
    (∀ (img : t_bmp24) (value : ℤ), Frame24 (bmp24_brightness img value) img) ∧
    (∀ img : t_bmp24, Frame24 (bmp24_grayscale img) img) ∧
    (∀ (img : t_bmp24) (kernel : List (List ℚ)) (kernelSize : ℕ), kernelSize % 2 = 1 →
      Frame24 (bmp24_applyFilter img kernel kernelSize) img) ∧
    (∀ img : t_bmp24, Frame24 (bmp24_equalize img) img) := by
  refine ⟨fun img => ⟨rfl, rfl, rfl, rfl, rfl, rfl⟩,
          fun img v => ⟨rfl, rfl, rfl, rfl, rfl, rfl⟩,
          fun img t => ⟨rfl, rfl, rfl, rfl, rfl, rfl⟩,
          fun img k ks _ => ?_,
          fun img => ?_,
          fun img => ⟨rfl, rfl, rfl, rfl, rfl⟩,
          fun img v => ⟨rfl, rfl, rfl, rfl, rfl⟩,
          fun img => ⟨rfl, rfl, rfl, rfl, rfl⟩,
          fun img k ks _ => ?_,
          fun img => ?_⟩
  · unfold bmp8_applyFilter
    split
    · exact ⟨rfl, rfl, rfl, rfl, rfl, rfl⟩
    · exact ⟨rfl, rfl, rfl, rfl, rfl, rfl⟩
  · simp only [bmp8_equalize]
    split
    · exact ⟨rfl, rfl, rfl, rfl, rfl, rfl⟩
    · exact ⟨rfl, rfl, rfl, rfl, rfl, rfl⟩
  · unfold bmp24_applyFilter
    split
    · exact ⟨rfl, rfl, rfl, rfl, rfl⟩
    · exact ⟨rfl, rfl, rfl, rfl, rfl⟩
  · simp only [bmp24_equalize]
    split
    · exact ⟨rfl, rfl, rfl, rfl, rfl⟩
    · exact ⟨rfl, rfl, rfl, rfl, rfl⟩

/-- Witness for C10: all ten operations at concrete inputs. -/
theorem C10_witness :
    Frame8 (bmp8_negative img8ex) img8ex ∧ Frame8 (bmp8_brightness img8ex 5) img8ex ∧
    Frame8 (bmp8_threshold img8ex 100) img8ex ∧
    Frame8 (bmp8_applyFilter img8ex [[1]] 1) img8ex ∧
    Frame8 (bmp8_equalize img8ex) img8ex ∧ Frame24 (bmp24_negative img24ex) img24ex ∧
    Frame24 (bmp24_brightness img24ex 5) img24ex ∧
    Frame24 (bmp24_grayscale img24ex) img24ex ∧
    Frame24 (bmp24_applyFilter img24ex [[1]] 1) img24ex ∧
    Frame24 (bmp24_equalize img24ex) img24ex :=
  ⟨C10_frame_effects.1 img8ex, C10_frame_effects.2.1 img8ex 5,
   C10_frame_effects.2.2.1 img8ex 100, C10_frame_effects.2.2.2.1 img8ex [[1]] 1 (by decide),
   C10_frame_effects.2.2.2.2.1 img8ex, C10_frame_effects.2.2.2.2.2.1 img24ex,
   C10_frame_effects.2.2.2.2.2.2.1 img24ex 5, C10_frame_effects.2.2.2.2.2.2.2.1 img24ex,
   C10_frame_effects.2.2.2.2.2.2.2.2.1 img24ex [[1]] 1 (by decide),
   C10_frame_effects.2.2.2.2.2.2.2.2.2 img24ex⟩

/-- When the file holds all `height` padded rows, `bmp24_readPixelData`
replaces every in-memory row `y` with the decoded file row `height-1-y`. -/
lemma bmp24_readPixelData_full (image : t_bmp24) (file : List ℕ)
    (hw : 0 < image.width)
    (hlen : image.header.offset + image.height.toNat * rowPaddedOf image.width.toNat ≤
      file.length) :
    bmp24_readPixelData image file = { image with
      data := (List.range image.height.toNat).map (fun y =>
        parseRowAt file (image.header.offset +
          (image.height.toNat - 1 - y) * rowPaddedOf image.width.toNat) image.width.toNat) } := by
  have hwn : 0 < image.width.toNat := by omega
  have hrp : 0 < rowPaddedOf image.width.toNat := by unfold rowPaddedOf; omega
  have hoff : image.header.offset ≤ file.length := by omega
  have havail : image.height.toNat ≤
      (file.length - image.header.offset) / rowPaddedOf image.width.toNat :=
    (Nat.le_div_iff_mul_le hrp).mpr (by omega)
  simp only [bmp24_readPixelData, if_pos (And.intro hoff hrp)]
  congr 1
  apply List.map_congr_left
  intro y hy
  rw [List.mem_range] at hy
  rw [if_pos (by omega : image.height.toNat - 1 - y <
    min image.height.toNat ((file.length - image.header.offset) / rowPaddedOf image.width.toNat))]

/-- When the header checks pass, `bmp24_loadImage` succeeds and returns
`bmp24_readPixelData` of the freshly allocated image carrying the file's
headers, `width` from the info header and `height = |info.height|`. -/
lemma bmp24_loadImage_success (junkP : ℕ → t_pixel) (junkB : ℕ → ℕ) (file : List ℕ)
    (hsig : (bmp24_fileHeaderOf file junkB).type = 0x4D42)
    (hbits : (bmp24_fileInfoOf file junkB).bits = 24)
    (hcomp : (bmp24_fileInfoOf file junkB).compression = 0)
    (hw : 0 < (bmp24_fileInfoOf file junkB).width)
    (hh : (bmp24_fileInfoOf file junkB).height ≠ 0) :
    bmp24_loadImage junkP junkB file = some (bmp24_readPixelData
      { header := bmp24_fileHeaderOf file junkB
        header_info := bmp24_fileInfoOf file junkB
        width := (bmp24_fileInfoOf file junkB).width
        height := ((bmp24_fileInfoOf file junkB).height.natAbs : ℤ)
        colorDepth := (bmp24_fileInfoOf file junkB).bits
        data := (List.range (bmp24_fileInfoOf file junkB).height.natAbs).map (fun y =>
          (List.range (bmp24_fileInfoOf file junkB).width.toNat).map (fun x =>
            junkP (y * (bmp24_fileInfoOf file junkB).width.toNat + x))) } file) := by
  have hcond : ¬((bmp24_fileInfoOf file junkB).width ≤ 0 ∨
      ((bmp24_fileInfoOf file junkB).height.natAbs : ℤ) ≤ 0) := by omega
  simp only [bmp24_loadImage, hsig, hbits, hcomp, ne_eq, not_true_eq_false, if_false,
    not_false_eq_true, if_true, if_neg hcond, bmp24_allocate, bmp24_allocateDataPixels]
  rfl

/-- Claim C4 as amended: for a 24-bit file with negative info-header
height, loading succeeds with `height = |info.height|` used for sizing,
but rows are read as if the file were bottom-up regardless of the sign:
in-memory row `y` receives the file row stored at index `height-1-y`, so
row 0 holds the row stored LAST — for a top-down (negative-height) file
the buffer is vertically flipped, not in the same orientation as for a
positive-height file. -/
theorem C4_negative_height_flipped (file : List ℕ) (junkP : ℕ → t_pixel) (junkB : ℕ → ℕ)
    (hsig : (bmp24_fileHeaderOf file junkB).type = 0x4D42)
    (hbits : (bmp24_fileInfoOf file junkB).bits = 24)
    (hcomp : (bmp24_fileInfoOf file junkB).compression = 0)
    (hw : 0 < (bmp24_fileInfoOf file junkB).width)
    (hh : (bmp24_fileInfoOf file junkB).height < 0)
    (hlen : (bmp24_fileHeaderOf file junkB).offset +
      (bmp24_fileInfoOf file junkB).height.natAbs *
        rowPaddedOf (bmp24_fileInfoOf file junkB).width.toNat ≤ file.length) :
    ∃ img, bmp24_loadImage junkP junkB file = some img ∧
      img.height = ((bmp24_fileInfoOf file junkB).height.natAbs : ℤ) ∧
      ∀ y < (bmp24_fileInfoOf file junkB).height.natAbs,
        img.data.getD y [] = parseRowAt file
          ((bmp24_fileHeaderOf file junkB).offset +
            ((bmp24_fileInfoOf file junkB).height.natAbs - 1 - y) *
              rowPaddedOf (bmp24_fileInfoOf file junkB).width.toNat)
          (bmp24_fileInfoOf file junkB).width.toNat := by
  rw [bmp24_loadImage_success junkP junkB file hsig hbits hcomp hw (by omega)]
  rw [bmp24_readPixelData_full _ file hw (by simpa only [Int.toNat_natCast] using hlen)]
  refine ⟨_, rfl, rfl, ?_⟩
  intro y hy
  rw [getD_range_map _ _ (by simpa only [Int.toNat_natCast] using hy)]
  congr 2

/-- Witness for C4: `C4_negative_height_flipped` at the concrete top-down
file `negHFile`. -/
theorem C4_witness :
    ∃ img, bmp24_loadImage junkP0 junkB0 negHFile = some img ∧
      img.height = ((bmp24_fileInfoOf negHFile junkB0).height.natAbs : ℤ) ∧
      ∀ y < (bmp24_fileInfoOf negHFile junkB0).height.natAbs,
        img.data.getD y [] = parseRowAt negHFile
          ((bmp24_fileHeaderOf negHFile junkB0).offset +
            ((bmp24_fileInfoOf negHFile junkB0).height.natAbs - 1 - y) *
              rowPaddedOf (bmp24_fileInfoOf negHFile junkB0).width.toNat)
          (bmp24_fileInfoOf negHFile junkB0).width.toNat :=
  C4_negative_height_flipped negHFile junkP0 junkB0 (by decide) (by decide) (by decide)
    (by decide) (by decide) (by decide)

lemma clampIdx_neg_one {s : ℤ} (hs : 0 < s) : clampIdx (-1) s = 0 := by
  simp only [clampIdx]; split_ifs <;> omega

lemma clampIdx_zero {s : ℤ} (hs : 0 < s) : clampIdx 0 s = 0 := by
  simp only [clampIdx]; split_ifs <;> omega

lemma clampIdx_one {s : ℤ} (hs : 1 < s) : clampIdx 1 s = 1 := by
  simp only [clampIdx]; split_ifs <;> omega

/-- Claim C3: convolution boundary policy for a 3×3 kernel.
(1) 8-bit: every pixel on the outermost 1-pixel border (row 0, the last
row, column 0 or the last column) is byte-identical after `bmp8_applyFilter`.
(2) 24-bit: EVERY pixel, border included, is recomputed as
`bmp24_convolution` of the pre-filter snapshot, whose out-of-bounds
neighbor coordinates are clamped (`clampIdx`).
(3) At a corner, the corner pixel of the snapshot is sampled by the four
kernel taps (0,0), (0,1), (1,0) and (1,1) — its channel values are
weighted by the SUM of those four kernel entries, i.e. 4 repeated samples
of the corner pixel itself. -/
theorem C3_convolution_boundary :
    (∀ (img : t_bmp8) (kernel : List (List ℚ)) (y x : ℕ), Valid8 img →
      y < img.height → x < img.width →
      (y = 0 ∨ y = img.height - 1 ∨ x = 0 ∨ x = img.width - 1) →
      (bmp8_applyFilter img kernel 3).data.getD (y * img.width + x) 0 =
        img.data.getD (y * img.width + x) 0) ∧
    (∀ (img : t_bmp24) (kernel : List (List ℚ)) (y x : ℕ),
      y < img.height.toNat → x < img.width.toNat →
      ((bmp24_applyFilter img kernel 3).data.getD y []).getD x pix0 =
        bmp24_convolution img x y kernel 3 img.data) ∧
    (∀ (img : t_bmp24) (kernel : List (List ℚ)) (odata : List (List t_pixel)),
      2 ≤ img.width → 2 ≤ img.height →
      bmp24_convolution img 0 0 kernel 3 odata =
        { blue := clamp_u8 (c_trunc (
            (((odata.getD 0 []).getD 0 pix0).blue : ℚ) *
              (((kernel.getD 0 []).getD 0 0) + ((kernel.getD 0 []).getD 1 0) +
               ((kernel.getD 1 []).getD 0 0) + ((kernel.getD 1 []).getD 1 0)) +
            (((odata.getD 0 []).getD 1 pix0).blue : ℚ) *
              (((kernel.getD 0 []).getD 2 0) + ((kernel.getD 1 []).getD 2 0)) +
            (((odata.getD 1 []).getD 0 pix0).blue : ℚ) *
              (((kernel.getD 2 []).getD 0 0) + ((kernel.getD 2 []).getD 1 0)) +
            (((odata.getD 1 []).getD 1 pix0).blue : ℚ) *
              ((kernel.getD 2 []).getD 2 0) + 1/2)),
          green := clamp_u8 (c_trunc (
            (((odata.getD 0 []).getD 0 pix0).green : ℚ) *
              (((kernel.getD 0 []).getD 0 0) + ((kernel.getD 0 []).getD 1 0) +
               ((kernel.getD 1 []).getD 0 0) + ((kernel.getD 1 []).getD 1 0)) +
            (((odata.getD 0 []).getD 1 pix0).green : ℚ) *
              (((kernel.getD 0 []).getD 2 0) + ((kernel.getD 1 []).getD 2 0)) +
            (((odata.getD 1 []).getD 0 pix0).green : ℚ) *
              (((kernel.getD 2 []).getD 0 0) + ((kernel.getD 2 []).getD 1 0)) +
            (((odata.getD 1 []).getD 1 pix0).green : ℚ) *
              ((kernel.getD 2 []).getD 2 0) + 1/2)),
          red := clamp_u8 (c_trunc (
            (((odata.getD 0 []).getD 0 pix0).red : ℚ) *
              (((kernel.getD 0 []).getD 0 0) + ((kernel.getD 0 []).getD 1 0) +
               ((kernel.getD 1 []).getD 0 0) + ((kernel.getD 1 []).getD 1 0)) +
            (((odata.getD 0 []).getD 1 pix0).red : ℚ) *
              (((kernel.getD 0 []).getD 2 0) + ((kernel.getD 1 []).getD 2 0)) +
            (((odata.getD 1 []).getD 0 pix0).red : ℚ) *
              (((kernel.getD 2 []).getD 0 0) + ((kernel.getD 2 []).getD 1 0)) +
            (((odata.getD 1 []).getD 1 pix0).red : ℚ) *
              ((kernel.getD 2 []).getD 2 0) + 1/2)) }) := by
  refine ⟨?_, ?_, ?_⟩
  · intro img kernel y x hv hy hx hb
    obtain ⟨hw, hh, hlen, hsize, -⟩ := hv
    simp only [bmp8_applyFilter]
    rw [if_neg (by norm_num : ¬((3 : ℕ) = 0 ∨ (3 : ℕ) % 2 = 0))]
    have hidx : y * img.width + x < img.data.length := by
      rw [hlen, hsize]
      calc y * img.width + x < (y + 1) * img.width := by rw [Nat.succ_mul]; omega
        _ ≤ img.height * img.width := Nat.mul_le_mul_right _ (by omega)
        _ = img.width * img.height := Nat.mul_comm _ _
    rw [getD_range_map _ _ hidx]
    have hdiv : (y * img.width + x) / img.width = y := by
      rw [Nat.add_comm (y * img.width) x, Nat.add_mul_div_right x y hw, Nat.div_eq_of_lt hx,
        Nat.zero_add]
    have hmod : (y * img.width + x) % img.width = x := by
      rw [Nat.add_comm (y * img.width) x, Nat.add_mul_mod_self_right, Nat.mod_eq_of_lt hx]
    simp only [show (3 : ℕ) / 2 = 1 from rfl, hdiv, hmod]
    rw [if_neg (by omega : ¬(1 ≤ y ∧ y < img.height - 1 ∧ 1 ≤ x ∧ x < img.width - 1))]
  · intro img kernel y x hy hx
    simp only [bmp24_applyFilter]
    rw [if_neg (by norm_num : ¬((3 : ℕ) = 0 ∨ (3 : ℕ) % 2 = 0))]
    rw [getD_range_map _ _ hy, getD_range_map _ _ hx]
  · intro img kernel odata hw hh
    have h0 : (0 : ℤ) < img.height := by omega
    have h0w : (0 : ℤ) < img.width := by omega
    simp only [bmp24_convolution, Finset.sum_range_succ, Finset.sum_range_zero, pix0]
    norm_num
    rw [clampIdx_neg_one h0, clampIdx_neg_one h0w, clampIdx_zero h0, clampIdx_zero h0w,
      clampIdx_one (by omega), clampIdx_one (by omega)]
    norm_num
    all_goals (congr 1; congr 1; ring)
    exact ⟨trivial, trivial, trivial⟩

/-- Witness for C3: all three parts at concrete images (2×2 8-bit border
pixel (0,0); 1×1 24-bit pixel (0,0); corner convolution on a 2×2 image). -/
theorem C3_witness :
    (bmp8_applyFilter img8ex [[1]] 3).data.getD (0 * img8ex.width + 0) 0 =
      img8ex.data.getD (0 * img8ex.width + 0) 0 ∧
    ((bmp24_applyFilter img24ex [[1]] 3).data.getD 0 []).getD 0 pix0 =
      bmp24_convolution img24ex 0 0 [[1]] 3 img24ex.data ∧
    bmp24_convolution img24ex2 0 0 [[1]] 3 img24ex2.data =
      { blue := clamp_u8 (c_trunc (
          (((img24ex2.data.getD 0 []).getD 0 pix0).blue : ℚ) *
            ((([[1]].getD 0 []).getD 0 0) + (([[1]].getD 0 []).getD 1 0) +
             (([[1]].getD 1 []).getD 0 0) + (([[1]].getD 1 []).getD 1 0)) +
          (((img24ex2.data.getD 0 []).getD 1 pix0).blue : ℚ) *
            ((([[1]].getD 0 []).getD 2 0) + (([[1]].getD 1 []).getD 2 0)) +
          (((img24ex2.data.getD 1 []).getD 0 pix0).blue : ℚ) *
            ((([[1]].getD 2 []).getD 0 0) + (([[1]].getD 2 []).getD 1 0)) +
          (((img24ex2.data.getD 1 []).getD 1 pix0).blue : ℚ) *
            (([[1]].getD 2 []).getD 2 0) + 1/2)),
        green := clamp_u8 (c_trunc (
          (((img24ex2.data.getD 0 []).getD 0 pix0).green : ℚ) *
            ((([[1]].getD 0 []).getD 0 0) + (([[1]].getD 0 []).getD 1 0) +
             (([[1]].getD 1 []).getD 0 0) + (([[1]].getD 1 []).getD 1 0)) +
          (((img24ex2.data.getD 0 []).getD 1 pix0).green : ℚ) *
            ((([[1]].getD 0 []).getD 2 0) + (([[1]].getD 1 []).getD 2 0)) +
          (((img24ex2.data.getD 1 []).getD 0 pix0).green : ℚ) *
            ((([[1]].getD 2 []).getD 0 0) + (([[1]].getD 2 []).getD 1 0)) +
          (((img24ex2.data.getD 1 []).getD 1 pix0).green : ℚ) *
            (([[1]].getD 2 []).getD 2 0) + 1/2)),
        red := clamp_u8 (c_trunc (
          (((img24ex2.data.getD 0 []).getD 0 pix0).red : ℚ) *
            ((([[1]].getD 0 []).getD 0 0) + (([[1]].getD 0 []).getD 1 0) +
             (([[1]].getD 1 []).getD 0 0) + (([[1]].getD 1 []).getD 1 0)) +
          (((img24ex2.data.getD 0 []).getD 1 pix0).red : ℚ) *
            ((([[1]].getD 0 []).getD 2 0) + (([[1]].getD 1 []).getD 2 0)) +
          (((img24ex2.data.getD 1 []).getD 0 pix0).red : ℚ) *
            ((([[1]].getD 2 []).getD 0 0) + (([[1]].getD 2 []).getD 1 0)) +
          (((img24ex2.data.getD 1 []).getD 1 pix0).red : ℚ) *
            (([[1]].getD 2 []).getD 2 0) + 1/2)) } :=
  ⟨C3_convolution_boundary.1 img8ex [[1]] 0 0
      ⟨by decide, by decide, by decide, by decide, by decide⟩ (by decide) (by decide)
      (Or.inl rfl),
   C3_convolution_boundary.2.1 img24ex [[1]] 0 0 (by decide) (by decide),
   C3_convolution_boundary.2.2 img24ex2 [[1]] img24ex2.data (by decide) (by decide)⟩

/-- The cumulative histogram is monotone. -/
lemma cdfC_mono (hist : ℕ → ℕ) {i j : ℕ} (h : i ≤ j) : cdfC hist i ≤ cdfC hist j := by
  induction j with
  | zero => obtain rfl : i = 0 := Nat.le_zero.mp h; exact Nat.le_refl _
  | succ n ih =>
    rcases Nat.eq_or_lt_of_le h with rfl | hlt
    · exact Nat.le_refl _
    · calc cdfC hist i ≤ cdfC hist n := ih (by omega)
        _ ≤ cdfC hist (n + 1) := Nat.le_add_right _ _

/-- Claim C8: for every histogram and positive `numPixels` the
equalization LUT is monotonically non-decreasing over the intensities,
in both the degenerate identity branch and the CDF-based branch. -/
theorem C8_lut_monotone (hist : ℕ → ℕ) (numPixels : ℕ) (hnp : 0 < numPixels)
    (i j : ℕ) (hij : i ≤ j) (hj : j ≤ 255) :
    ∃ l, bmp8_computeEqualizedHistogram hist numPixels = some l ∧ l i ≤ l j := by
  unfold bmp8_computeEqualizedHistogram
  rw [if_neg (by omega)]
  refine ⟨_, rfl, ?_⟩
  dsimp only
  by_cases hd : (numPixels : ℤ) - (cdfminOf hist : ℤ) ≤ 0
  · rw [if_pos hd, if_pos hd]; exact hij
  · rw [if_neg hd, if_neg hd]
    have hmono : cdfC hist i - cdfminOf hist ≤ cdfC hist j - cdfminOf hist :=
      Nat.sub_le_sub_right (cdfC_mono hist hij) _
    have hden : (0 : ℚ) < (numPixels : ℚ) - (cdfminOf hist : ℚ) := by
      have h1 : (cdfminOf hist : ℤ) < (numPixels : ℤ) := by omega
      have h2 : (cdfminOf hist : ℚ) < (numPixels : ℚ) := by exact_mod_cast h1
      linarith
    have hscale : (0 : ℚ) ≤ 255 / ((numPixels : ℚ) - (cdfminOf hist : ℚ)) :=
      le_of_lt (div_pos (by norm_num) hden)
    have hq : ((cdfC hist i - cdfminOf hist : ℕ) : ℚ) *
        (255 / ((numPixels : ℚ) - (cdfminOf hist : ℚ))) ≤
        ((cdfC hist j - cdfminOf hist : ℕ) : ℚ) *
        (255 / ((numPixels : ℚ) - (cdfminOf hist : ℚ))) :=
      mul_le_mul_of_nonneg_right (by exact_mod_cast hmono) hscale
    have h0i : (0 : ℚ) ≤ ((cdfC hist i - cdfminOf hist : ℕ) : ℚ) *
        (255 / ((numPixels : ℚ) - (cdfminOf hist : ℚ))) :=
      mul_nonneg (Nat.cast_nonneg _) hscale
    have h0j : (0 : ℚ) ≤ ((cdfC hist j - cdfminOf hist : ℕ) : ℚ) *
        (255 / ((numPixels : ℚ) - (cdfminOf hist : ℚ))) := le_trans h0i hq
    have hci : c_round (((cdfC hist i - cdfminOf hist : ℕ) : ℚ) *
        (255 / ((numPixels : ℚ) - (cdfminOf hist : ℚ)))) ≤
        c_round (((cdfC hist j - cdfminOf hist : ℕ) : ℚ) *
        (255 / ((numPixels : ℚ) - (cdfminOf hist : ℚ)))) := by
      unfold c_round
      rw [if_neg (not_lt.mpr h0i), if_neg (not_lt.mpr h0j)]
      exact Int.floor_le_floor (by linarith)
    exact min_le_min (Int.toNat_le_toNat hci) (Nat.le_refl 255)

/-- Witness for C8: the LUT of the scenario histogram is monotone between
intensities 10 and 40. -/
theorem C8_witness :
    ∃ l, bmp8_computeEqualizedHistogram (bmp8_computeHistogram img8ex) 4 = some l ∧
      l 10 ≤ l 40 :=
  C8_lut_monotone (bmp8_computeHistogram img8ex) 4 (by decide) 10 40 (by decide) (by decide)

lemma getD_take {α : Type _} {l : List α} {n i : ℕ} (d : α) (h : i < n) :
    (l.take n).getD i d = l.getD i d := by
  rw [List.getD_eq_getElem?_getD, List.getD_eq_getElem?_getD, List.getElem?_take, if_pos h]

/-- Indexing into a concatenation of constant-length chunks. -/
lemma getD_flatMap_chunks {α : Type _} (f : ℕ → List α) (L : ℕ) :
    ∀ {n k j : ℕ}, (∀ i < n, (f i).length = L) → k < n → j < L → ∀ (d : α),
      ((List.range n).flatMap f).getD (k * L + j) d = (f k).getD j d := by
  intro n
  induction n generalizing f with
  | zero => intro k j _ hk; exact absurd hk (Nat.not_lt_zero k)
  | succ m ih =>
    intro k j hL hk hj d
    rw [List.range_succ_eq_map, List.flatMap_cons, List.flatMap_map]
    cases k with
    | zero =>
      rw [Nat.zero_mul, Nat.zero_add]
      exact getD_append_lt d (by rw [hL 0 (by omega)]; exact hj)
    | succ k' =>
      rw [getD_append_ge d (by rw [hL 0 (by omega)]; nlinarith [Nat.succ_mul k' L])]
      rw [hL 0 (by omega)]
      have harith : (k' + 1) * L + j - L = k' * L + j := by rw [Nat.succ_mul]; omega
      rw [harith]
      exact ih (fun p => f (p + 1)) (fun i hi => hL (i + 1) (by omega)) (by omega) hj d

lemma length_flatMap_const {α : Type _} (f : ℕ → List α) (L : ℕ) :
    ∀ {n : ℕ}, (∀ i < n, (f i).length = L) → ((List.range n).flatMap f).length = n * L := by
  intro n
  induction n generalizing f with
  | zero => intro _; simp
  | succ m ih =>
    intro hL
    rw [List.range_succ_eq_map, List.flatMap_cons, List.flatMap_map, List.length_append,
      hL 0 (by omega), ih (fun p => f (p + 1)) (fun i hi => hL (i + 1) (by omega))]
    rw [Nat.succ_mul]
    omega

lemma u16_round (n : ℕ) (h : n < 2 ^ 16) : u16le (n % 256) (n / 256 % 256) = n := by
  unfold u16le; omega

lemma u32_round (n : ℕ) (h : n < 2 ^ 32) :
    u32le (n % 256) (n / 256 % 256) (n / 65536 % 256) (n / 16777216 % 256) = n := by
  unfold u32le; omega

lemma asI32_emod (v : ℤ) (hlo : -(2 ^ 31) ≤ v) (hhi : v < 2 ^ 31) :
    asI32 ((v.emod (2 ^ 32)).toNat) = v := by
  have h32 : ((2 : ℤ) ^ 32) = 4294967296 := by norm_num
  have h31 : ((2 : ℤ) ^ 31) = 2147483648 := by norm_num
  unfold asI32
  rw [h32] at *
  rw [h31] at *
  rw [show v.emod 4294967296 = v % 4294967296 from rfl]
  split_ifs with h1 <;> omega

lemma emod_toNat_lt (v : ℤ) : (v.emod (2 ^ 32)).toNat < 2 ^ 32 := by
  have h : v.emod (2 ^ 32) = v % 4294967296 := by norm_num [HMod.hMod, Mod.mod]
  have h2 : (2 : ℕ) ^ 32 = 4294967296 := by norm_num
  rw [h, h2]
  omega

lemma readRaw_eq (file : List ℕ) (junk : ℕ → ℕ) (pos n : ℕ) (h : pos + n ≤ file.length) :
    readRaw file junk pos n = (file.drop pos).take n := by
  apply List.ext_getElem
  · simp [readRaw]; omega
  · intro i h1 h2
    have h1n : i < n := by
      simpa only [readRaw, List.length_map, List.length_range] using h1
    simp only [readRaw, List.getElem_map, List.getElem_range, List.getElem_take,
      List.getElem_drop]
    rw [if_pos (by omega)]
    rw [List.getD_eq_getElem?_getD, List.getElem?_eq_getElem (by omega)]
    rfl

/-- Reading back the 14 serialized bytes of a bounded `t_bmp_header`. -/
lemma parse_serialize_header (h : t_bmp_header) (h1 : h.type < 2 ^ 16) (h2 : h.size < 2 ^ 32)
    (h3 : h.reserved1 < 2 ^ 16) (h4 : h.reserved2 < 2 ^ 16) (h5 : h.offset < 2 ^ 32) :
    parse_bmp_header (serialize_bmp_header h) = h := by
  obtain ⟨t, s, r1, r2, o⟩ := h
  simp only [serialize_bmp_header, bytesOfU16, bytesOfU32, List.cons_append, List.nil_append,
    parse_bmp_header, List.getD_cons_zero, List.getD_cons_succ, t_bmp_header.mk.injEq] at *
  exact ⟨u16_round t h1, u32_round s h2, u16_round r1 h3, u16_round r2 h4, u32_round o h5⟩

/-- Reading back the 40 serialized bytes of a bounded `t_bmp_info`. -/
lemma parse_serialize_info (i : t_bmp_info) (h1 : i.size < 2 ^ 32)
    (h2 : -(2 ^ 31) ≤ i.width) (h3 : i.width < 2 ^ 31)
    (h4 : -(2 ^ 31) ≤ i.height) (h5 : i.height < 2 ^ 31)
    (h6 : i.planes < 2 ^ 16) (h7 : i.bits < 2 ^ 16) (h8 : i.compression < 2 ^ 32)
    (h9 : i.imagesize < 2 ^ 32)
    (h10 : -(2 ^ 31) ≤ i.xresolution) (h11 : i.xresolution < 2 ^ 31)
    (h12 : -(2 ^ 31) ≤ i.yresolution) (h13 : i.yresolution < 2 ^ 31)
    (h14 : i.ncolors < 2 ^ 32) (h15 : i.importantcolors < 2 ^ 32) :
    parse_bmp_info (serialize_bmp_info i) = i := by
  obtain ⟨sz, w, ht, pl, bi, cp, im, xr, yr, nc, ic⟩ := i
  simp only [serialize_bmp_info, bytesOfU16, bytesOfU32, bytesOfI32, List.cons_append,
    List.nil_append, parse_bmp_info, List.getD_cons_zero, List.getD_cons_succ,
    t_bmp_info.mk.injEq] at *
  refine ⟨u32_round sz h1, ?_, ?_, u16_round pl h6, u16_round bi h7, u32_round cp h8,
    u32_round im h9, ?_, ?_, u32_round nc h14, u32_round ic h15⟩
  · rw [u32_round _ (emod_toNat_lt w)]
    exact asI32_emod w h2 h3
  · rw [u32_round _ (emod_toNat_lt ht)]
    exact asI32_emod ht h4 h5
  · rw [u32_round _ (emod_toNat_lt xr)]
    exact asI32_emod xr h10 h11
  · rw [u32_round _ (emod_toNat_lt yr)]
    exact asI32_emod yr h12 h13

/-- The three bytes a pixel contributes sit at offsets `3x`, `3x+1`,
`3x+2` of the row's flattened BGR bytes. -/
lemma flatMap_triple_getD (row : List t_pixel) :
    ∀ {x : ℕ}, x < row.length → ∀ (d : ℕ),
      ((row.flatMap (fun p => [p.blue, p.green, p.red])).getD (3 * x) d = (row.getD x pix0).blue ∧
       (row.flatMap (fun p => [p.blue, p.green, p.red])).getD (3 * x + 1) d =
         (row.getD x pix0).green ∧
       (row.flatMap (fun p => [p.blue, p.green, p.red])).getD (3 * x + 2) d =
         (row.getD x pix0).red) := by
  induction row with
  | nil => intro x hx; exact absurd hx (by simp)
  | cons p rest ih =>
    intro x hx d
    rw [List.flatMap_cons]
    cases x with
    | zero => simp
    | succ x' =>
      have e0 : 3 * (x' + 1) = 3 + 3 * x' := by ring
      have e1 : 3 * (x' + 1) + 1 = 3 + (3 * x' + 1) := by ring
      have e2 : 3 * (x' + 1) + 2 = 3 + (3 * x' + 2) := by ring
      rw [e2, e1, e0]
      rw [getD_append_ge d (by simp), getD_append_ge d (by simp), getD_append_ge d (by simp)]
      simp only [List.length_cons, List.length_nil]
      have e3 : ∀ m : ℕ, 3 + m - 3 = m := fun m => by omega
      rw [e3, e3, e3]
      simp only [List.getD_cons_succ]
      exact ih (by simpa using hx) d

lemma length_flatMap_triple (row : List t_pixel) :
    (row.flatMap (fun p => [p.blue, p.green, p.red])).length = 3 * row.length := by
  induction row with
  | nil => rfl
  | cons p rest ih =>
    rw [List.flatMap_cons, List.length_append, ih, List.length_cons]
    simp
    omega

lemma rowBytes_length (image : t_bmp24)
    (hrows : ∀ row ∈ image.data, row.length = image.width.toNat)
    (hdl : image.data.length = image.height.toNat) :
    ∀ k < image.height.toNat, (bmp24_rowBytes image k).length = rowPaddedOf image.width.toNat := by
  intro k hk
  have hidx : image.height.toNat - 1 - k < image.data.length := by omega
  have hmem : image.data.getD (image.height.toNat - 1 - k) [] ∈ image.data := by
    rw [List.getD_eq_getElem _ _ hidx]
    exact List.getElem_mem _
  have hrl := hrows _ hmem
  unfold bmp24_rowBytes rowPaddedOf
  rw [List.length_append, length_flatMap_triple, hrl, List.length_replicate]
  omega

lemma save_length (img : t_bmp24)
    (hrows : ∀ row ∈ img.data, row.length = img.width.toNat)
    (hdl : img.data.length = img.height.toNat) :
    (bmp24_saveImage img).length = 54 + img.height.toNat * rowPaddedOf img.width.toNat := by
  show (serialize_bmp_header _ ++ serialize_bmp_info _ ++ bmp24_writePixelData img).length = _
  rw [List.length_append, List.length_append]
  rw [show (serialize_bmp_header _).length = 14 from rfl,
    show (serialize_bmp_info _).length = 40 from rfl]
  unfold bmp24_writePixelData
  rw [length_flatMap_const (bmp24_rowBytes img) (rowPaddedOf img.width.toNat)
    (rowBytes_length img hrows hdl)]

lemma length_serialize_bmp_header (x : t_bmp_header) : (serialize_bmp_header x).length = 14 :=
  rfl

lemma length_serialize_bmp_info (x : t_bmp_info) : (serialize_bmp_info x).length = 40 :=
  rfl

lemma save_getD_pixel_region (img : t_bmp24)
    (hrows : ∀ row ∈ img.data, row.length = img.width.toNat)
    (hdl : img.data.length = img.height.toNat)
    {k j : ℕ} (hk : k < img.height.toNat) (hj : j < rowPaddedOf img.width.toNat) :
    (bmp24_saveImage img).getD (54 + (k * rowPaddedOf img.width.toNat + j)) 0 =
      (bmp24_rowBytes img k).getD j 0 := by
  unfold bmp24_saveImage
  rw [getD_append_ge 0 (by
    simp only [List.length_append, length_serialize_bmp_header, length_serialize_bmp_info]
    omega)]
  simp only [List.length_append, length_serialize_bmp_header, length_serialize_bmp_info]
  have harith : 54 + (k * rowPaddedOf img.width.toNat + j) - (14 + 40) =
      k * rowPaddedOf img.width.toNat + j := by omega
  rw [harith]
  unfold bmp24_writePixelData
  exact getD_flatMap_chunks (bmp24_rowBytes img) (rowPaddedOf img.width.toNat)
    (rowBytes_length img hrows hdl) hk hj 0

lemma parseRowAt_save (img : t_bmp24)
    (hrows : ∀ row ∈ img.data, row.length = img.width.toNat)
    (hdl : img.data.length = img.height.toNat)
    {k : ℕ} (hk : k < img.height.toNat) :
    parseRowAt (bmp24_saveImage img) (54 + k * rowPaddedOf img.width.toNat) img.width.toNat =
      img.data.getD (img.height.toNat - 1 - k) [] := by
  have hidx : img.height.toNat - 1 - k < img.data.length := by omega
  have hmem : img.data.getD (img.height.toNat - 1 - k) [] ∈ img.data := by
    rw [List.getD_eq_getElem _ _ hidx]
    exact List.getElem_mem _
  have hrl := hrows _ hmem
  have hrp3 : img.width.toNat * 3 ≤ rowPaddedOf img.width.toNat := by
    unfold rowPaddedOf; omega
  unfold parseRowAt
  conv_rhs => rw [← range_map_getD_self (img.data.getD (img.height.toNat - 1 - k) []) pix0, hrl]
  apply List.map_congr_left
  intro x hx
  rw [List.mem_range] at hx
  have hbyte : ∀ c : ℕ, c < 3 →
      (bmp24_saveImage img).getD (54 + k * rowPaddedOf img.width.toNat + (3 * x + c)) 0 =
        (bmp24_rowBytes img k).getD (3 * x + c) 0 := by
    intro c hc
    have := save_getD_pixel_region img hrows hdl hk
      (show 3 * x + c < rowPaddedOf img.width.toNat by omega)
    rw [← Nat.add_assoc] at this
    exact this
  have htrip := flatMap_triple_getD (img.data.getD (img.height.toNat - 1 - k) [])
    (by rw [hrl]; exact hx) 0
  have hflat_len : ((img.data.getD (img.height.toNat - 1 - k) []).flatMap
      (fun p => [p.blue, p.green, p.red])).length = 3 * img.width.toNat := by
    rw [length_flatMap_triple, hrl]
  have hrow : ∀ c : ℕ, c < 3 → (bmp24_rowBytes img k).getD (3 * x + c) 0 =
      ((img.data.getD (img.height.toNat - 1 - k) []).flatMap
        (fun p => [p.blue, p.green, p.red])).getD (3 * x + c) 0 := by
    intro c hc
    unfold bmp24_rowBytes
    exact getD_append_lt 0 (by rw [hflat_len]; omega)
  have e0 : 54 + k * rowPaddedOf img.width.toNat + 3 * x =
      54 + k * rowPaddedOf img.width.toNat + (3 * x + 0) := by omega
  rw [show 54 + k * rowPaddedOf img.width.toNat + 3 * x + 1 =
      54 + k * rowPaddedOf img.width.toNat + (3 * x + 1) by omega]
  rw [show 54 + k * rowPaddedOf img.width.toNat + 3 * x + 2 =
      54 + k * rowPaddedOf img.width.toNat + (3 * x + 2) by omega]
  rw [e0]
  rw [hbyte 0 (by omega), hbyte 1 (by omega), hbyte 2 (by omega)]
  rw [hrow 0 (by omega), hrow 1 (by omega), hrow 2 (by omega)]
  rw [show 3 * x + 0 = 3 * x by omega]
  rw [htrip.1, htrip.2.1, htrip.2.2]

lemma save_congr (a b : t_bmp24) (h1 : a.width = b.width) (h2 : a.height = b.height)
    (h3 : a.data = b.data) : bmp24_saveImage a = bmp24_saveImage b := by
  unfold bmp24_saveImage bmp24_writePixelData bmp24_rowBytes
  rw [h1, h2, h3]

/-- Counterexample to claim C1: `cexFile` is a well-formed 1×1
uncompressed 24-bit BMP with a standard 40-byte info header whose
`xresolution` field is 2835 (72 DPI).  It loads successfully, but saving
the loaded image does not reproduce the file: `bmp24_saveImage` zeroes
the resolution fields (and normalizes offset, sizes and the height sign),
so the round-trip is not byte-for-byte. -/
theorem C1_counterexample :
    (bmp24_loadImage junkP0 junkB0 cexFile).isSome = true ∧
    (bmp24_loadImage junkP0 junkB0 cexFile).map bmp24_saveImage ≠ some cexFile := by
  decide

/-- Claim C1 as amended: the round-trip `save(load(f))` reproduces `f`
byte-for-byte only for files in the saver's canonical layout.
(1) 8-bit: for every `Canon8` file (valid signature and depth, pixel data
at offset 1078 extending exactly to end of file), `save(load(f)) = f`.
(2) 24-bit: canonical files are exactly the outputs of `bmp24_saveImage`:
for every valid image whose recomputed file size fits in a `uint32`,
loading its saved bytes yields an image with the same width, height and
pixels, whose own save is byte-for-byte the same file — i.e.
`save(load(save(img))) = save(img)`.  Files with a nonzero resolution
field, a negative height, a nonstandard pixel-data offset or nonzero
padding bytes are normalized by save, not reproduced. -/
theorem C1_roundtrip_canonical :
    (∀ f : List ℕ, Canon8 f → (bmp8_loadImage f).map bmp8_saveImage = some f) ∧
    (∀ (img : t_bmp24) (junkP : ℕ → t_pixel) (junkB : ℕ → ℕ), Valid24 img →
      54 + (((img.width.toNat * 3 * 8 + 31) / 32) * 4) * img.height.natAbs < 2 ^ 32 →
      ∃ img2, bmp24_loadImage junkP junkB (bmp24_saveImage img) = some img2 ∧
        img2.width = img.width ∧ img2.height = img.height ∧ img2.data = img.data ∧
        bmp24_saveImage img2 = bmp24_saveImage img) := by
  constructor
  · intro f hc
    obtain ⟨hlen, hs0, hs1, hdep, hoff, hsz⟩ := hc
    have h54 : readBytes f 0 54 = some (f.take 54) := by
      unfold readBytes
      rw [if_pos (by omega)]
      rw [List.drop_zero]
    unfold bmp8_loadImage
    rw [h54]
    dsimp only
    rw [if_pos ⟨by rw [getD_take 0 (by omega)]; exact hs0,
      by rw [getD_take 0 (by omega)]; exact hs1⟩]
    rw [if_pos hdep]
    have hct : readBytes f 54 1024 = some ((f.drop 54).take 1024) := by
      unfold readBytes
      rw [if_pos (by omega)]
    rw [hct]
    dsimp only
    have hdata : readBytes f (bmp8_offsetOf (f.take 54)) (bmp8_dataSizeOf (f.take 54)) =
        some ((f.drop 1078).take (bmp8_dataSizeOf (f.take 54))) := by
      rw [hoff]
      unfold readBytes
      rw [if_pos (by omega)]
    rw [hdata]
    dsimp only
    rw [Option.map_some']
    congr 1
    show f.take 54 ++ (f.drop 54).take 1024 ++
      ((f.drop 1078).take (bmp8_dataSizeOf (f.take 54))).take (bmp8_dataSizeOf (f.take 54)) = f
    rw [List.take_take, Nat.min_self]
    have htk : (f.drop 1078).take (bmp8_dataSizeOf (f.take 54)) = f.drop 1078 := by
      apply List.take_of_length_le
      rw [List.length_drop]
      omega
    rw [htk]
    have h1078 : f.take 54 ++ (f.drop 54).take 1024 = f.take 1078 := by
      rw [show (1078 : ℕ) = 54 + 1024 from rfl, List.take_add]
    rw [h1078, List.take_append_drop]
  · intro img junkP junkB hv hsz
    obtain ⟨hw0, hw31, hh0, hh31, hdl, hrows, -⟩ := hv
    have hna : img.height.natAbs = img.height.toNat := by omega
    have hrprw : ((img.width.toNat * 3 * 8 + 31) / 32) * 4 = rowPaddedOf img.width.toNat := by
      unfold rowPaddedOf; omega
    have hflen := save_length img hrows hdl
    have hfdef : bmp24_saveImage img = serialize_bmp_header
        { type := 0x4D42,
          size := 54 + (((img.width.toNat * 3 * 8 + 31) / 32) * 4) * img.height.natAbs,
          reserved1 := 0, reserved2 := 0, offset := 54 } ++ serialize_bmp_info
        { size := 40, width := img.width, height := img.height, planes := 1, bits := 24,
          compression := 0,
          imagesize := (((img.width.toNat * 3 * 8 + 31) / 32) * 4) * img.height.natAbs,
          xresolution := 0, yresolution := 0, ncolors := 0, importantcolors := 0 } ++
        bmp24_writePixelData img := rfl
    have hH : bmp24_fileHeaderOf (bmp24_saveImage img) junkB =
        { type := 0x4D42,
          size := 54 + (((img.width.toNat * 3 * 8 + 31) / 32) * 4) * img.height.natAbs,
          reserved1 := 0, reserved2 := 0, offset := 54 } := by
      unfold bmp24_fileHeaderOf
      rw [readRaw_eq _ _ _ _ (by rw [hflen]; omega)]
      rw [List.drop_zero, hfdef, List.append_assoc, List.take_left' (length_serialize_bmp_header _)]
      exact parse_serialize_header _ (by norm_num) hsz (by norm_num) (by norm_num) (by norm_num)
    have hI : bmp24_fileInfoOf (bmp24_saveImage img) junkB =
        { size := 40, width := img.width, height := img.height, planes := 1, bits := 24,
          compression := 0,
          imagesize := (((img.width.toNat * 3 * 8 + 31) / 32) * 4) * img.height.natAbs,
          xresolution := 0, yresolution := 0, ncolors := 0, importantcolors := 0 } := by
      unfold bmp24_fileInfoOf
      rw [readRaw_eq _ _ _ _ (by rw [hflen]; omega)]
      rw [hfdef, List.append_assoc, List.drop_left' (length_serialize_bmp_header _)]
      rw [List.take_left' (length_serialize_bmp_info _)]
      exact parse_serialize_info _ (by norm_num)
        (by show -(2 ^ 31 : ℤ) ≤ img.width; omega)
        (by show img.width < 2 ^ 31; exact hw31)
        (by show -(2 ^ 31 : ℤ) ≤ img.height; omega)
        (by show img.height < 2 ^ 31; exact hh31)
        (by norm_num) (by norm_num) (by norm_num)
        (by
          show (((img.width.toNat * 3 * 8 + 31) / 32) * 4) * img.height.natAbs < 2 ^ 32
          exact lt_of_le_of_lt (Nat.le_add_left _ 54) hsz)
        (by norm_num) (by norm_num) (by norm_num) (by norm_num) (by norm_num) (by norm_num)
    have hload := bmp24_loadImage_success junkP junkB (bmp24_saveImage img)
      (by rw [hH]) (by rw [hI]) (by rw [hI])
      (by rw [hI]; show (0 : ℤ) < img.width; exact hw0)
      (by rw [hI]; show img.height ≠ (0 : ℤ); omega)
    rw [hload, hH, hI]
    rw [bmp24_readPixelData_full _ _ (by exact hw0) (by
      show (54 : ℕ) + ((img.height.natAbs : ℤ)).toNat * rowPaddedOf img.width.toNat ≤ _
      rw [hflen, Int.toNat_natCast, hna])]
    have hHeq : ((img.height.natAbs : ℤ)).toNat = img.height.toNat := by omega
    have hdata : (List.range (((img.height.natAbs : ℤ)).toNat)).map (fun y =>
        parseRowAt (bmp24_saveImage img)
          (54 + ((((img.height.natAbs : ℤ)).toNat - 1 - y) * rowPaddedOf img.width.toNat))
          img.width.toNat) = img.data := by
      rw [hHeq]
      conv_rhs => rw [← range_map_getD_self img.data [], hdl]
      apply List.map_congr_left
      intro y hy
      rw [List.mem_range] at hy
      rw [parseRowAt_save img hrows hdl
        (show img.height.toNat - 1 - y < img.height.toNat by omega)]
      rw [show img.height.toNat - 1 - (img.height.toNat - 1 - y) = y from by omega]
    refine ⟨_, rfl, rfl, ?_, ?_, ?_⟩
    · show ((img.height.natAbs : ℤ)) = img.height
      omega
    · show (List.range _).map _ = img.data
      exact hdata
    · apply save_congr
      · rfl
      · show ((img.height.natAbs : ℤ)) = img.height
        omega
      · show (List.range _).map _ = img.data
        exact hdata

/-- Witness for C1: the 8-bit half at the canonical file `wit8File`, and
the 24-bit half at the concrete image `img24ex`. -/
theorem C1_witness :
    (bmp8_loadImage wit8File).map bmp8_saveImage = some wit8File ∧
    ∃ img2, bmp24_loadImage junkP0 junkB0 (bmp24_saveImage img24ex) = some img2 ∧
      img2.width = img24ex.width ∧ img2.height = img24ex.height ∧
      img2.data = img24ex.data ∧
      bmp24_saveImage img2 = bmp24_saveImage img24ex :=
  ⟨C1_roundtrip_canonical.1 wit8File
    ⟨by decide, by decide, by decide, by decide, by decide, by decide⟩,
   C1_roundtrip_canonical.2 img24ex junkP0 junkB0
    ⟨by decide, by decide, by decide, by decide, by decide, by decide, by decide⟩
    (by decide)⟩
